import Mathlib

/-!
Verification of the catalog core of an Iceberg-style REST catalog server.

The development shallowly embeds the table store of
`crates/iceberg-catalog/src/implementations/postgres/table.rs` (create,
lookup, rename, commit-transaction) together with the pagination token
codecs of `crates/iceberg-rest-server/src/types.rs`.  SQL statements are
embedded as pure functions over an explicit relational state; errors are
`Except` values mirroring the `ErrorModel` the code builds at each failure
site.
-/

namespace IcebergCatalog

/-- The error envelope built by `ErrorModel::builder()`: HTTP status code,
human message, and the stable `type` tag. -/
structure ErrorModel where
  code : Nat
  message : String
  errType : String
deriving DecidableEq, Repr

/-! Part: Pagination tokens (`iceberg-rest-server/src/types.rs`) -/

/-- The `PageToken`: tri-state request-side pagination token. -/
inductive PageToken where
  /-- The value is present and not "" -/
  | present (s : String)
  /-- The value is not present -/
  | notSpecified
  /-- Specified but empty -/
  | empty
deriving DecidableEq, Repr

/-- The `Deserialize` impl for `PageToken`: the serde field value is an
`Option<String>`; a missing key gives `none`. -/
def PageToken.deserialize (opt : Option String) : PageToken :=
  match opt with
  | some s => if s ≠ "" then .present s else .empty
  | none => .notSpecified

/-- The `Serialize` impl for `PageToken` (`none` = `serialize_none`). -/
def PageToken.serialize (t : PageToken) : Option String :=
  match t with
  | .present s => some s
  | .notSpecified => none
  | .empty => some ""

/-- The `NextPageToken`: tri-state response-side pagination token. -/
inductive NextPageToken where
  /-- The value is present and not "" and not "null" -/
  | nextToken (s : String)
  /-- The value is not present -/
  | finished
  /-- The server does not support pagination; omits the field -/
  | notSupported
deriving DecidableEq, Repr

/-- The `Serialize` impl for `NextPageToken`. -/
def NextPageToken.serialize (t : NextPageToken) : Option String :=
  match t with
  | .nextToken s => some s
  | .finished => some "null"
  | .notSupported => none

/-- The `Deserialize` impl for `NextPageToken`, with the source's arm
order: `Some(s) if !s.is_empty()` first, then `Some(s) if s == "null"`,
then `Some(_)`, then `None`. -/
def NextPageToken.deserialize (opt : Option String) : NextPageToken :=
  match opt with
  | some s =>
    if s ≠ "" then .nextToken s
    else if s = "null" then .notSupported
    else .finished
  | none => .notSupported

end IcebergCatalog

namespace IcebergCatalog

/-! Part: Catalog data model

The relational state backing `implementations/postgres/table.rs`.  UUIDs
are modelled as `Nat`; storage profiles are opaque identifiers. -/

/-- A table identifier: multi-part namespace name plus table name
(`TableIdent { namespace, name }`; `namespace` is a Lean keyword). -/
structure TableIdent where
  namespaceName : List String
  name : String
deriving DecidableEq, Repr

/-- The table-metadata document.  The aggregate's full field set (schemas,
specs, sort orders, snapshots, refs) is opaque to `table.rs`; the fields
the store reads or guards are `uuid` and `location`, plus `properties`
exercised by the delegated updates and an opaque `schema`. -/
structure TableMetadata where
  uuid : Nat
  location : String
  schema : Nat
  properties : List (String × String)
deriving DecidableEq, Repr

/-- A row of the `warehouse` relation (the columns `table.rs` touches). -/
structure WarehouseRow where
  warehouse_id : Nat
  active : Bool
  storage_profile : Nat
  storage_secret_id : Option Nat
deriving DecidableEq, Repr

/-- A row of the `namespace` relation. -/
structure NamespaceRow where
  namespace_id : Nat
  warehouse_id : Nat
  namespace_name : List String
deriving DecidableEq, Repr

/-- A row of the `"table"` relation. -/
structure TableRow where
  table_id : Nat
  namespace_id : Nat
  table_name : String
  metadata : TableMetadata
  metadata_location : Option String
  table_location : String
deriving DecidableEq, Repr

/-- The catalog database state. -/
structure CatalogState where
  warehouses : List WarehouseRow
  namespaces : List NamespaceRow
  tables : List TableRow
deriving DecidableEq, Repr

/-- The `MAX_PARAMETERS` from `table.rs`. -/
def MAX_PARAMETERS : Nat := 30000

/-- The namespace row of a table together with its warehouse row, provided
the warehouse is active — the `INNER JOIN namespace … INNER JOIN warehouse
… AND w.status = 'active'` shape shared by the queries of `table.rs`. -/
def activeWarehouseOf (st : CatalogState) (t : TableRow) :
    Option (NamespaceRow × WarehouseRow) :=
  match st.namespaces.find? (fun n => decide (n.namespace_id = t.namespace_id)) with
  | some n =>
    match st.warehouses.find?
        (fun w => decide (w.warehouse_id = n.warehouse_id ∧ w.active = true)) with
    | some w => some (n, w)
    | none => none
  | none => none

/-- The `EXISTS (SELECT 1 FROM warehouse w INNER JOIN namespace n … WHERE
n.namespace_id = $2 AND w.status = 'active')` gate of `create_table`. -/
def namespaceActiveGate (st : CatalogState) (nsid : Nat) : Bool :=
  st.namespaces.any (fun n =>
    decide (n.namespace_id = nsid) &&
      st.warehouses.any
        (fun w => decide (w.warehouse_id = n.warehouse_id ∧ w.active = true)))

/-! Part: Error values built in `table.rs` -/

/-- The `Conflict/CreateTableLocationRequired`. -/
def createTableLocationRequiredErr : ErrorModel :=
  { code := 409, message := "Table location is required",
    errType := "CreateTableLocationRequired" }

/-- The `Conflict/TableAlreadyExists` (also covers the `RowNotFound` shape of
a failed warehouse-active gate, as the source maps both to it). -/
def tableAlreadyExistsErr : ErrorModel :=
  { code := 409, message := "Table already exists in Namespace",
    errType := "TableAlreadyExists" }

/-- The `BadRequest/TooManyTables` from `table_idents_to_ids`. -/
def tooManyTablesErr : ErrorModel :=
  { code := 400, message := "Too many tables to fetch", errType := "TooManyTables" }

/-- The `NotFound/NoSuchTableError` from `get_table_metadata_by_s3_location`. -/
def noSuchTableErr : ErrorModel :=
  { code := 404, message := "Table not found", errType := "NoSuchTableError" }

/-- The `NotFound/TableStaged` from the staged filter of the metadata getters. -/
def tableStagedErr : ErrorModel :=
  { code := 404, message := "Table is staged and not yet created",
    errType := "TableStaged" }

/-- The `NotFound/RenameTableIdNotFound` from the same-namespace rename. -/
def renameTableIdNotFoundErr : ErrorModel :=
  { code := 404, message := "ID of Table to rename not found",
    errType := "RenameTableIdNotFound" }

/-- The `NotFound/RenameTableIdOrNamespaceNotFound` from the cross-namespace
rename. -/
def renameTableIdOrNamespaceNotFoundErr : ErrorModel :=
  { code := 404,
    message := "ID of Table to rename not found or destination namespace not found",
    errType := "RenameTableIdOrNamespaceNotFound" }

/-- The `BadRequest/TableIdentifierRequired` from `get_commit_context`. -/
def tableIdentifierRequiredErr : ErrorModel :=
  { code := 400, message := "Table identifier must be specified for all changes",
    errType := "TableIdentifierRequired" }

/-- The `BadRequest/TableIdentifierNotFound` from `get_commit_context`. -/
def tableIdentifierNotFoundErr : ErrorModel :=
  { code := 400, message := "Table identifier not found",
    errType := "TableIdentifierNotFound" }

/-- The `NotFound/NoSuchTableError` from `get_commit_context` (same code and
type tag as the location getter's error, different stack). -/
def noSuchTableCommitErr : ErrorModel :=
  { code := 404, message := "Table not found", errType := "NoSuchTableError" }

/-- The `BadRequest/TooManyTablesForCommit` from `commit_table_transaction`. -/
def tooManyTablesForCommitErr : ErrorModel :=
  { code := 400, message := "Too updates in single commit",
    errType := "TooManyTablesForCommit" }

/-- The `BadRequest/AssignUuidNotAllowed` from `apply_commits`. -/
def assignUuidNotAllowedErr : ErrorModel :=
  { code := 400, message := "Cannot assign a new UUID",
    errType := "AssignUuidNotAllowed" }

/-- The `BadRequest/SetLocationNotAllowed` from `apply_commits`. -/
def setLocationNotAllowedErr : ErrorModel :=
  { code := 400, message := "Cannot change table location",
    errType := "SetLocationNotAllowed" }

/-- The `InternalServerError/CommitTableUpdateError` from the bulk-update
row-count check. -/
def commitTableUpdateErr : ErrorModel :=
  { code := 500, message := "Error committing table updates",
    errType := "CommitTableUpdateError" }

/-! Part: `create_table` -/

/-- The `CreateTableRequest` (schema, partition spec and write order are
opaque to the store; stage-create is resolved by the caller into the
`metadata_location` argument). -/
structure CreateTableRequest where
  name : String
  location : Option String
  schema : Nat
  stage_create : Option Bool
  properties : Option (List (String × String))
deriving DecidableEq, Repr

/-- Modelled from the spec: `TableMetadataAggregate` (crate `iceberg-ext`,
not under `src/`) builds an initial metadata document from the required
`location` and `schema`, the optional `properties`, and the UUID assigned
via `assign_uuid` — "Build an initial `TableMetadata` via the metadata
aggregate from: required `location`, required `schema`, … optional
`properties`, and the assigned UUID." -/
def buildInitialMetadata (location : String) (request : CreateTableRequest)
    (table_id : Nat) : TableMetadata :=
  { uuid := table_id, location := location, schema := request.schema,
    properties := request.properties.getD [] }

/-- The replacement row written by `create_table`'s insert and by its
`ON CONFLICT … DO UPDATE` arm (both write the same six columns). -/
def createdRow (namespace_id : Nat) (name : String) (table_id : Nat)
    (table_metadata : TableMetadata) (metadata_location : Option String)
    (location : String) : TableRow :=
  { table_id := table_id, namespace_id := namespace_id, table_name := name,
    metadata := table_metadata, metadata_location := metadata_location,
    table_location := location }

/-- The unique-name constraint `unique_table_name_per_namespace` as a row
predicate: the row occupies the `(namespace_id, table_name)` slot. -/
def sameIdentPred (namespace_id : Nat) (name : String) (t : TableRow) : Bool :=
  decide (t.namespace_id = namespace_id ∧ t.table_name = name)

/-- The `create_table`: gate on an active warehouse, insert the row, and on a
unique-name conflict overwrite a staged row in place or fail with
`Conflict/TableAlreadyExists` for a committed one.  A `RowNotFound` from
the statement (gate failed, or the `DO UPDATE` filtered on a non-null
`metadata_location`) also surfaces as `Conflict/TableAlreadyExists`. -/
def create_table (namespace_id : Nat) (table : TableIdent) (table_id : Nat)
    (request : CreateTableRequest) (metadata_location : Option String)
    (st : CatalogState) : Except ErrorModel (CatalogState × TableMetadata) :=
  match request.location with
  | none => .error createTableLocationRequiredErr
  | some location =>
    let table_metadata := buildInitialMetadata location request table_id
    let newRow := createdRow namespace_id table.name table_id table_metadata
      metadata_location location
    if namespaceActiveGate st namespace_id then
      match st.tables.find? (sameIdentPred namespace_id table.name) with
      | none =>
        .ok ({ st with tables := st.tables ++ [newRow] }, table_metadata)
      | some existing =>
        if existing.metadata_location = none then
          .ok ({ st with tables := st.tables.map (fun t =>
            if sameIdentPred namespace_id table.name t
            then newRow else t) }, table_metadata)
        else .error tableAlreadyExistsErr
    else .error tableAlreadyExistsErr

/-- The state observable after `create_table` ran inside its caller's
write transaction: an error rolls every effect back. -/
def create_table_run (namespace_id : Nat) (table : TableIdent) (table_id : Nat)
    (request : CreateTableRequest) (metadata_location : Option String)
    (st : CatalogState) : CatalogState :=
  match create_table namespace_id table table_id request metadata_location st with
  | .ok (st', _) => st'
  | .error _ => st

/-! Part: Identifier resolution (`table_idents_to_ids`) -/

/-- Lookup in the result map (first binding wins, as for the single
binding a `HashMap` key holds). -/
def identsLookup (m : List (TableIdent × Option Nat)) (i : TableIdent) :
    Option (Option Nat) :=
  (m.find? (fun p => decide (p.1 = i))).map (fun p => p.2)

/-- The rows the batch query of `table_idents_to_ids` returns: tables
joined to their active warehouse whose `(namespace_name, table_name)`
pair is in the requested batch. -/
def identQueryRows (warehouse_id : Nat) (tables : List TableIdent)
    (st : CatalogState) : List (NamespaceRow × TableRow) :=
  st.tables.filterMap (fun t =>
    match activeWarehouseOf st t with
    | some (n, _) =>
      if decide (n.warehouse_id = warehouse_id) &&
          decide ((⟨n.namespace_name, t.table_name⟩ : TableIdent) ∈ tables)
      then some (n, t) else none
    | none => none)

/-- The first insertion phase of `table_idents_to_ids`: visible rows
(committed, or any when `include_staged`) are keyed by identifier with
their UUID. -/
def identFoundEntries (warehouse_id : Nat) (tables : List TableIdent)
    (include_staged : Bool) (st : CatalogState) :
    List (TableIdent × Option Nat) :=
  (identQueryRows warehouse_id tables st).filterMap (fun p =>
    if !p.2.metadata_location.isNone || include_staged
    then some ((⟨p.1.namespace_name, p.2.table_name⟩ : TableIdent),
      some p.2.table_id)
    else none)

/-- The second phase: every requested identifier still absent is added
with `None`. -/
def identMissingEntries (warehouse_id : Nat) (tables : List TableIdent)
    (include_staged : Bool) (st : CatalogState) :
    List (TableIdent × Option Nat) :=
  tables.filterMap (fun i =>
    if (identsLookup (identFoundEntries warehouse_id tables include_staged st)
        i).isNone
    then some (i, (none : Option Nat)) else none)

/-- The `table_idents_to_ids`: empty batches short-circuit; oversized
batches are refused; otherwise the batch query feeds the two insertion
phases. -/
def table_idents_to_ids (warehouse_id : Nat) (tables : List TableIdent)
    (include_staged : Bool) (st : CatalogState) :
    Except ErrorModel (List (TableIdent × Option Nat)) :=
  if tables.isEmpty then .ok []
  else if tables.length > MAX_PARAMETERS / 2 then .error tooManyTablesErr
  else .ok (identFoundEntries warehouse_id tables include_staged st ++
    identMissingEntries warehouse_id tables include_staged st)

/-! Part: Location-prefix lookup (`get_table_metadata_by_s3_location`) -/

/-- SQL `LIKE` matching of a pattern against a string, as the engine
evaluates the query's pattern: `_` matches any single character, `%` any
(possibly empty) sequence, a backslash escapes the next pattern
character, and every other character matches itself. -/
def likeMatch : List Char → List Char → Bool
  | [], s => s.isEmpty
  | '\\' :: pc :: ps, s =>
    match s with
    | [] => false
    | c :: s2 => pc == c && likeMatch ps s2
  | '%' :: ps, s => s.tails.any (fun s2 => likeMatch ps s2)
  | '_' :: ps, s =>
    match s with
    | [] => false
    | _ :: s2 => likeMatch ps s2
  | pc :: ps, s =>
    match s with
    | [] => false
    | c :: s2 => pc == c && likeMatch ps s2

/-- The `$2 LIKE t."table_location" || '%'` condition of the location
query: the stored location, with its unescaped `_`/`%` acting as
wildcards, followed by anything, matched against the query path. -/
def likePatternMatches (table_location location : String) : Bool :=
  likeMatch (table_location.data ++ ['%']) location.data

/-- The claim's reading of that condition: the query path literally
starts with the stored location, character-wise.  Stated from the spec's
words ("`t.table_location` is a **prefix** of `path`") to be compared
with the code's `LIKE` semantics. -/
def likeStartsWith (table_location location : String) : Bool :=
  table_location.data.isPrefixOf location.data

/-- The row condition of the location query: active warehouse of the given
id, `$2 LIKE t."table_location" || '%'`, and
`LENGTH(t."table_location") <= $3`. -/
def s3LocationMatches (st : CatalogState) (warehouse_id : Nat)
    (location : String) (t : TableRow) : Bool :=
  (match activeWarehouseOf st t with
   | some (n, _) => decide (n.warehouse_id = warehouse_id)
   | none => false) &&
  likePatternMatches t.table_location location &&
  decide (t.table_location.length ≤ location.length)

/-- The `GetTableMetadataResult`. -/
structure GetTableMetadataResult where
  table : TableIdent
  table_id : Nat
  warehouse_id : Nat
  location : String
  metadata_location : Option String
  storage_secret_ident : Option Nat
  storage_profile : Nat
deriving DecidableEq, Repr

/-- The `get_table_metadata_by_s3_location`: `fetch_one` of the rows whose
table location is a prefix of the query path (no row gives
`NotFound/NoSuchTableError`), then the staged filter. -/
def get_table_metadata_by_s3_location (warehouse_id : Nat) (location : String)
    (include_staged : Bool) (st : CatalogState) :
    Except ErrorModel GetTableMetadataResult :=
  match st.tables.filter (fun t => s3LocationMatches st warehouse_id location t) with
  | [] => .error noSuchTableErr
  | t :: _ =>
    if !include_staged && t.metadata_location.isNone then .error tableStagedErr
    else
      match activeWarehouseOf st t with
      | some (n, w) =>
        .ok { table := ⟨n.namespace_name, t.table_name⟩,
              table_id := t.table_id,
              warehouse_id := warehouse_id, location := t.table_location,
              metadata_location := t.metadata_location,
              storage_secret_ident := w.storage_secret_id,
              storage_profile := w.storage_profile }
      | none => .error noSuchTableErr

/-! Part: `rename_table` -/

/-- The `rename_table`.  Same-namespace: update `table_name` keyed on
`table_id`, gated on the given warehouse id being active.  Cross-namespace:
additionally require the row to bear the source name and move it to the
destination namespace looked up by `(warehouse_id, namespace_name)`.
The destination-namespace-missing case is modelled from the spec
("Destination-namespace-missing and source-table-missing collapse into a
single `NotFound/RenameTableIdOrNamespaceNotFound`"): the schema
constraint that turns the NULL scalar subquery into a failed update is in
the migrations, which are not under `src/`. -/
def rename_table (warehouse_id : Nat) (source_id : Nat)
    (source destination : TableIdent) (st : CatalogState) :
    Except ErrorModel CatalogState :=
  if source.namespaceName = destination.namespaceName then
    if st.warehouses.any (fun w =>
        decide (w.warehouse_id = warehouse_id ∧ w.active = true)) &&
        st.tables.any (fun t => decide (t.table_id = source_id)) then
      .ok { st with tables := st.tables.map (fun t =>
        if decide (t.table_id = source_id)
        then { t with table_name := destination.name } else t) }
    else .error renameTableIdNotFoundErr
  else
    match st.namespaces.find? (fun n =>
        decide (n.warehouse_id = warehouse_id ∧
          n.namespace_name = destination.namespaceName)) with
    | none => .error renameTableIdOrNamespaceNotFoundErr
    | some destNs =>
      if st.warehouses.any (fun w =>
          decide (w.warehouse_id = warehouse_id ∧ w.active = true)) &&
          st.tables.any (fun t =>
            decide (t.table_id = source_id ∧ t.table_name = source.name)) then
        .ok { st with tables := st.tables.map (fun t =>
          if decide (t.table_id = source_id ∧ t.table_name = source.name)
          then { t with table_name := destination.name,
                        namespace_id := destNs.namespace_id } else t) }
      else .error renameTableIdOrNamespaceNotFoundErr

/-- The state observable after `rename_table` ran inside its caller's
write transaction: an error rolls every effect back. -/
def rename_table_run (warehouse_id : Nat) (source_id : Nat)
    (source destination : TableIdent) (st : CatalogState) : CatalogState :=
  match rename_table warehouse_id source_id source destination st with
  | .ok st' => st'
  | .error _ => st

/-! Part: Commit-transaction machinery -/

/-- The `TableRequirement` kinds whose semantics `table.rs` exercises
(further kinds are delegated to the aggregate's assertion module). -/
inductive TableRequirement where
  | notExist
  | uuidMatch (uuid : Nat)
deriving DecidableEq, Repr

/-- The `TableUpdate` kinds: the two guarded in `apply_commits` plus the
property updates the delegated aggregate path exercises. -/
inductive TableUpdate where
  | assignUuid (uuid : Nat)
  | setLocation (location : String)
  | setProperties (updates : List (String × String))
  | removeProperties (removals : List String)
deriving DecidableEq, Repr

/-- A generic requirement-failure error (the exact envelope is built in
the assertion module, outside the store). -/
def requirementFailedErr (message : String) : ErrorModel :=
  { code := 409, message := message, errType := "CommitFailedException" }

/-- Modelled from the spec: `TableRequirementExt::assert` lives in the
crate's `api` module, not under `src/` — "`NotExist` — accepted only if
the table is staged …; `UuidMatch { uuid }` — passes iff
`current_metadata.uuid == uuid`", evaluated as
`r.assert(current_metadata, table_exists := metadata_location is present)`. -/
def TableRequirement.assert (r : TableRequirement) (metadata : TableMetadata)
    (tableExists : Bool) : Except ErrorModel Unit :=
  match r with
  | .notExist =>
    if tableExists then .error (requirementFailedErr "Table exists") else .ok ()
  | .uuidMatch uuid =>
    if metadata.uuid = uuid then .ok ()
    else .error (requirementFailedErr "Table UUID does not match")

/-- Key-wise property upsert. -/
def upsertProperties (ps kvs : List (String × String)) : List (String × String) :=
  ps.filter (fun kv => !(kvs.any (fun kv2 => kv2.1 == kv.1))) ++ kvs

/-- Modelled from the spec: `TableUpdateExt::apply` and the
`TableMetadataAggregate` builder live in the `iceberg-ext` crate, not
under `src/` — "All other update kinds (schemas, specs, sort orders,
snapshots, refs, properties, …) are delegated to the aggregate"; the
delegated kinds mutate their own aggregate fields only. -/
def applyAggregate (builder : TableMetadata) (u : TableUpdate) : TableMetadata :=
  match u with
  | .setProperties kvs =>
    { builder with properties := upsertProperties builder.properties kvs }
  | .removeProperties ks =>
    { builder with properties :=
      builder.properties.filter (fun kv => !(ks.any (fun k => k == kv.1))) }
  | _ => builder

/-- One iteration of the update loop of `apply_commits`: the `AssignUuid`
and `SetLocation` arms are guarded against the values captured before the
loop and never reach the aggregate; everything else is forwarded. -/
def applyTableUpdate (previous_uuid : Nat) (previous_location : String)
    (builder : TableMetadata) (u : TableUpdate) : Except ErrorModel TableMetadata :=
  match u with
  | .assignUuid uuid =>
    if uuid ≠ previous_uuid then .error assignUuidNotAllowedErr else .ok builder
  | .setLocation location =>
    if location ≠ previous_location then .error setLocationNotAllowedErr
    else .ok builder
  | u => .ok (applyAggregate builder u)

/-- The update loop of `apply_commits` over one change's update list. -/
def applyTableUpdates (previous_uuid : Nat) (previous_location : String)
    (builder : TableMetadata) :
    List TableUpdate → Except ErrorModel TableMetadata
  | [] => .ok builder
  | u :: rest => do
    let builder' ← applyTableUpdate previous_uuid previous_location builder u
    applyTableUpdates previous_uuid previous_location builder' rest

/-- The `CommitTableRequest`: one change of a commit transaction. -/
structure CommitTableRequest where
  identifier : Option TableIdent
  requirements : List TableRequirement
  updates : List TableUpdate
deriving DecidableEq, Repr

/-- The `CommitTransactionRequest`. -/
structure CommitTransactionRequest where
  table_changes : List CommitTableRequest
deriving DecidableEq, Repr

/-- The `CommitContext` of `table.rs`. -/
structure CommitContext where
  requirements : List TableRequirement
  updates : List TableUpdate
  storage_profile : Nat
  storage_secret_ident : Option Nat
  namespace_id : Nat
  metadata : TableMetadata
  metadata_location : Option String
deriving DecidableEq, Repr

/-- The `CommitTableResponseExt` (the nested `CommitTableResponse` flattened
into its `metadata` and `metadata_location` fields). -/
structure CommitTableResponseExt where
  metadata : TableMetadata
  metadata_location : String
  storage_profile : Nat
  storage_secret_ident : Option Nat
  previous_table_metadata : TableMetadata
deriving DecidableEq, Repr

/-- A row of the snapshot query of `get_commit_context`. -/
structure CommitRecord where
  table_id : Nat
  metadata : TableMetadata
  metadata_location : Option String
  storage_profile : Nat
  storage_secret_id : Option Nat
  namespace_id : Nat
deriving DecidableEq, Repr

/-- The snapshot query: every table row whose id is among the resolved
UUIDs, joined to its active warehouse. -/
def fetchCommitRecords (ids : List Nat) (st : CatalogState) : List CommitRecord :=
  st.tables.filterMap (fun t =>
    if decide (t.table_id ∈ ids) then
      match activeWarehouseOf st t with
      | some (n, w) =>
        some { table_id := t.table_id, metadata := t.metadata,
               metadata_location := t.metadata_location,
               storage_profile := w.storage_profile,
               storage_secret_id := w.storage_secret_id,
               namespace_id := n.namespace_id }
      | none => none
    else none)

/-- Lookup of a resolved table id (`table_ids.get(&table_ident)`). -/
def lookupTableId (table_ids : List (TableIdent × Nat)) (i : TableIdent) :
    Option Nat :=
  (table_ids.find? (fun p => decide (p.1 = i))).map (fun p => p.2)

/-- The per-change loop of `get_commit_context`: identifier required,
resolved id required, snapshot record required. -/
def getCommitContextList (table_ids : List (TableIdent × Nat))
    (records : List CommitRecord) :
    List CommitTableRequest → Except ErrorModel (List CommitContext)
  | [] => .ok []
  | change :: rest =>
    match change.identifier with
    | none => .error tableIdentifierRequiredErr
    | some ident =>
      match lookupTableId table_ids ident with
      | none => .error tableIdentifierNotFoundErr
      | some table_id =>
        match records.find? (fun m => decide (m.table_id = table_id)) with
        | none => .error noSuchTableCommitErr
        | some record => do
          let contexts ← getCommitContextList table_ids records rest
          .ok ({ requirements := change.requirements,
                 updates := change.updates,
                 storage_profile := record.storage_profile,
                 storage_secret_ident := record.storage_secret_id,
                 namespace_id := record.namespace_id,
                 metadata := record.metadata,
                 metadata_location := record.metadata_location } :: contexts)

/-- The `get_commit_context`. -/
def get_commit_context (request : CommitTransactionRequest)
    (table_ids : List (TableIdent × Nat)) (st : CatalogState) :
    Except ErrorModel (List CommitContext) :=
  getCommitContextList table_ids
    (fetchCommitRecords (table_ids.map (fun p => p.2)) st) request.table_changes

/-- Modelled from the spec: `StorageProfile::metadata_location` (storage
module, not under `src/`) — "Compute the new metadata file URI from the
warehouse's storage profile and a freshly minted time-ordered UUID". -/
def metadataLocationFor (storage_profile : Nat) (location : String)
    (metadata_id : Nat) : String :=
  location ++ "/metadata/" ++ toString (storage_profile + metadata_id) ++
    ".metadata.json"

/-- The `apply_commits`: per context, capture the previous uuid and location,
mint a metadata id, fold the updates, and build the response row. -/
def apply_commits (fresh : Nat) :
    List CommitContext → Except ErrorModel (List CommitTableResponseExt)
  | [] => .ok []
  | context :: rest => do
    let previous_location := context.metadata.location
    let previous_uuid := context.metadata.uuid
    let metadata_location :=
      metadataLocationFor context.storage_profile previous_location fresh
    let previous_table_metadata := context.metadata
    let new_metadata ←
      applyTableUpdates previous_uuid previous_location context.metadata
        context.updates
    let responses ← apply_commits (fresh + 1) rest
    .ok ({ metadata := new_metadata, metadata_location := metadata_location,
           storage_profile := context.storage_profile,
           storage_secret_ident := context.storage_secret_ident,
           previous_table_metadata := previous_table_metadata } :: responses)

/-- The requirement loop over one context. -/
def assertAllRequirements (requirements : List TableRequirement)
    (metadata : TableMetadata) (tableExists : Bool) : Except ErrorModel Unit :=
  match requirements with
  | [] => .ok ()
  | r :: rest => do
    TableRequirement.assert r metadata tableExists
    assertAllRequirements rest metadata tableExists

/-- The "Check all requirements" loop of `commit_table_transaction`. -/
def checkRequirements : List CommitContext → Except ErrorModel Unit
  | [] => .ok ()
  | c :: cs => do
    assertAllRequirements c.requirements c.metadata c.metadata_location.isSome
    checkRequirements cs

/-- The bulk `UPDATE "table" … FROM (VALUES …) AS c(table_id, metadata,
metadata_location) WHERE c.table_id = t.table_id`. -/
def bulkUpdateTables (tables : List TableRow)
    (vals : List (Nat × TableMetadata × String)) : List TableRow :=
  tables.map (fun t =>
    match vals.find? (fun v => decide (v.1 = t.table_id)) with
    | some v => { t with metadata := v.2.1, metadata_location := some v.2.2 }
    | none => t)

/-- The number of row ids the bulk update returns: one per matched row. -/
def countUpdatedTables (tables : List TableRow)
    (vals : List (Nat × TableMetadata × String)) : Nat :=
  (tables.filter (fun t => vals.any (fun v => decide (v.1 = t.table_id)))).length

/-- The `commit_table_transaction`: build the contexts, bound-check, assert
the requirements, apply the updates, persist through the bulk update, and
fail with `CommitTableUpdateError` on a row-count mismatch. -/
def commit_table_transaction (request : CommitTransactionRequest)
    (table_ids : List (TableIdent × Nat)) (fresh : Nat) (st : CatalogState) :
    Except ErrorModel (CatalogState × List CommitTableResponseExt) := do
  let contexts ← get_commit_context request table_ids st
  if contexts.length > MAX_PARAMETERS / 4 then
    .error tooManyTablesForCommitErr
  else do
    checkRequirements contexts
    let responses ← apply_commits fresh contexts
    let vals := responses.map (fun r => (r.metadata.uuid, r.metadata, r.metadata_location))
    if countUpdatedTables st.tables vals ≠ responses.length then
      .error commitTableUpdateErr
    else
      .ok ({ st with tables := bulkUpdateTables st.tables vals }, responses)

/-- The state observable after `commit_table_transaction` ran inside its
caller's write transaction: any failure anywhere rolls back all effects. -/
def commit_table_transaction_run (request : CommitTransactionRequest)
    (table_ids : List (TableIdent × Nat)) (fresh : Nat) (st : CatalogState) :
    CatalogState :=
  match commit_table_transaction request table_ids fresh st with
  | .ok (st', _) => st'
  | .error _ => st

/-- The metadata-consistency invariant of the spec: a table row's
metadata carries the row's own id and root location. -/
def rowConsistent (t : TableRow) : Prop :=
  t.metadata.uuid = t.table_id ∧ t.metadata.location = t.table_location

instance rowConsistentDecidable (t : TableRow) : Decidable (rowConsistent t) :=
  inferInstanceAs (Decidable (t.metadata.uuid = t.table_id ∧
    t.metadata.location = t.table_location))

/-! Part: Concrete fixtures used by the witnesses -/

/-- An active warehouse. -/
def sampleWarehouse : WarehouseRow :=
  { warehouse_id := 1, active := true, storage_profile := 7,
    storage_secret_id := some 9 }

/-- A namespace under the sample warehouse. -/
def sampleNamespace : NamespaceRow :=
  { namespace_id := 10, warehouse_id := 1, namespace_name := ["ns"] }

/-- Metadata of the committed sample table. -/
def sampleMetadata : TableMetadata :=
  { uuid := 100, location := "s3://b/t", schema := 0, properties := [] }

/-- A committed table. -/
def sampleTable : TableRow :=
  { table_id := 100, namespace_id := 10, table_name := "t",
    metadata := sampleMetadata, metadata_location := some "s3://b/t/m0",
    table_location := "s3://b/t" }

/-- Metadata of the staged sample table. -/
def sampleStagedMetadata : TableMetadata :=
  { uuid := 200, location := "s3://b/s", schema := 0, properties := [] }

/-- A staged table (no metadata location). -/
def sampleStagedTable : TableRow :=
  { table_id := 200, namespace_id := 10, table_name := "s",
    metadata := sampleStagedMetadata, metadata_location := none,
    table_location := "s3://b/s" }

/-- The sample catalog state: one active warehouse, one namespace, one
committed and one staged table. -/
def sampleState : CatalogState :=
  { warehouses := [sampleWarehouse], namespaces := [sampleNamespace],
    tables := [sampleTable, sampleStagedTable] }

/-- A create request targeting the staged table's name. -/
def sampleCreateRequest : CreateTableRequest :=
  { name := "s", location := some "s3://b/s2", schema := 0,
    stage_create := none, properties := none }

/-- A committed table whose root location contains `_`, as the repo's own
tests use (`s3://my_bucket/my_table`): each unescaped `_` is a `LIKE`
wildcard. -/
def wildcardTable : TableRow :=
  { table_id := 300, namespace_id := 10, table_name := "w",
    metadata := { uuid := 300, location := "s3://my_bucket/my_table",
                  schema := 0, properties := [] },
    metadata_location := some "s3://my_bucket/my_table/m0",
    table_location := "s3://my_bucket/my_table" }

/-- A catalog state holding only `wildcardTable`. -/
def wildcardState : CatalogState :=
  { warehouses := [sampleWarehouse], namespaces := [sampleNamespace],
    tables := [wildcardTable] }

/-- A commit change whose `NotExist` requirement fails on the committed
sample table. -/
def sampleCommitChangeBad : CommitTableRequest :=
  { identifier := some ⟨["ns"], "t"⟩, requirements := [.notExist], updates := [] }

/-- The one-change transaction built from `sampleCommitChangeBad`. -/
def sampleCommitRequestBad : CommitTransactionRequest :=
  { table_changes := [sampleCommitChangeBad] }

/-- The resolved id map for the committed sample table. -/
def sampleTableIds : List (TableIdent × Nat) := [(⟨["ns"], "t"⟩, 100)]

/-- The commit context the snapshot query yields for
`sampleCommitChangeBad` on the sample state. -/
def sampleContextBad : CommitContext :=
  { requirements := [.notExist], updates := [], storage_profile := 7,
    storage_secret_ident := some 9, namespace_id := 10,
    metadata := sampleMetadata, metadata_location := some "s3://b/t/m0" }

/-- A change on the committed sample table with no requirement and no
update; 7501 copies of it exercise the commit bound check. -/
def sampleCommitChangeOk : CommitTableRequest :=
  { identifier := some ⟨["ns"], "t"⟩, requirements := [], updates := [] }

/-- An oversized transaction: 7501 valid changes. -/
def sampleOversizedRequest : CommitTransactionRequest :=
  { table_changes := List.replicate 7501 sampleCommitChangeOk }

/-- The snapshot record of the committed sample table. -/
def sampleCommitRecord : CommitRecord :=
  { table_id := 100, metadata := sampleMetadata,
    metadata_location := some "s3://b/t/m0", storage_profile := 7,
    storage_secret_id := some 9, namespace_id := 10 }

/-- A create request for a fresh table "u". -/
def sampleCreateRequestU : CreateTableRequest :=
  { name := "u", location := some "s3://b/u", schema := 0,
    stage_create := none, properties := none }

/-- The row `create_table` inserts for "u". -/
def sampleCreatedRow : TableRow :=
  createdRow 10 "u" 101 (buildInitialMetadata "s3://b/u" sampleCreateRequestU 101)
    (some "s3://b/u/m0") "s3://b/u"

/-- The sample state after creating "u". -/
def sampleStateAfterCreate : CatalogState :=
  { sampleState with tables := sampleState.tables ++ [sampleCreatedRow] }

/-- A commit change setting a property on the committed sample table,
guarded by a matching `UuidMatch`. -/
def sampleCommitChangeProps : CommitTableRequest :=
  { identifier := some ⟨["ns"], "t"⟩, requirements := [.uuidMatch 100],
    updates := [.setProperties [("k", "v")]] }

/-- The one-change transaction built from `sampleCommitChangeProps`. -/
def sampleCommitRequestProps : CommitTransactionRequest :=
  { table_changes := [sampleCommitChangeProps] }

/-- The committed sample table after that commit. -/
def sampleTableAfterCommit : TableRow :=
  { sampleTable with
    metadata := { uuid := 100, location := "s3://b/t", schema := 0,
                  properties := [("k", "v")] },
    metadata_location := some "s3://b/t/metadata/7.metadata.json" }

/-- The sample state after that commit. -/
def sampleStateAfterCommit : CatalogState :=
  { sampleState with tables := [sampleTableAfterCommit, sampleStagedTable] }

/-- The responses of that commit. -/
def sampleCommitResponses : List CommitTableResponseExt :=
  [{ metadata := { uuid := 100, location := "s3://b/t", schema := 0,
                   properties := [("k", "v")] },
     metadata_location := "s3://b/t/metadata/7.metadata.json",
     storage_profile := 7, storage_secret_ident := some 9,
     previous_table_metadata := sampleMetadata }]

/-! Part: General lemmas on the embedding -/

theorem except_ok_bind {α β : Type} (a : α) (f : α → Except ErrorModel β) :
    (Except.ok a >>= f) = f a := rfl

theorem except_error_bind {α β : Type} (e : ErrorModel)
    (f : α → Except ErrorModel β) :
    ((Except.error e : Except ErrorModel α) >>= f) = .error e := rfl

theorem find?_map_replace {α : Type} (p : α → Bool) (nw : α) (l : List α)
    (hp : p nw = true) (h : (l.find? p).isSome = true) :
    (l.map (fun t => if p t then nw else t)).find? p = some nw := by
  induction l with
  | nil => simp [List.find?] at h
  | cons a l ih =>
    simp only [List.map_cons]
    by_cases ha : p a = true
    · rw [if_pos ha, List.find?_cons_of_pos _ hp]
    · rw [if_neg ha, List.find?_cons_of_neg _ ha]
      apply ih
      rw [List.find?_cons_of_neg _ ha] at h
      exact h

/-- C2: a `create_table` whose `(namespace_id, table_name)` collides with
an existing row overwrites a staged row in place — table_id, metadata,
metadata_location and table_location are replaced by the new values, no
row is added, other rows survive — and succeeds; with a committed row it
fails `Conflict/TableAlreadyExists` (HTTP 409) and changes nothing. -/
theorem create_table_upsert_rule
    (namespace_id : Nat) (table : TableIdent) (table_id : Nat)
    (request : CreateTableRequest) (metadata_location : Option String)
    (st : CatalogState) (location : String) (existing : TableRow)
    (hloc : request.location = some location)
    (hgate : namespaceActiveGate st namespace_id = true)
    (hfind : st.tables.find? (sameIdentPred namespace_id table.name) = some existing) :
    (existing.metadata_location = none →
      ∃ st', create_table namespace_id table table_id request metadata_location st =
          .ok (st', buildInitialMetadata location request table_id) ∧
        st'.tables.find? (sameIdentPred namespace_id table.name) =
          some (createdRow namespace_id table.name table_id
            (buildInitialMetadata location request table_id) metadata_location
            location) ∧
        (∀ t ∈ st.tables, sameIdentPred namespace_id table.name t = false →
          t ∈ st'.tables) ∧
        st'.tables.length = st.tables.length) ∧
    (existing.metadata_location ≠ none →
      create_table namespace_id table table_id request metadata_location st =
        .error tableAlreadyExistsErr ∧
      tableAlreadyExistsErr.code = 409 ∧
      tableAlreadyExistsErr.errType = "TableAlreadyExists" ∧
      create_table_run namespace_id table table_id request metadata_location st
        = st) := by
  constructor
  · intro hstaged
    refine ⟨{ st with tables := st.tables.map (fun t =>
      if sameIdentPred namespace_id table.name t
      then createdRow namespace_id table.name table_id
        (buildInitialMetadata location request table_id) metadata_location
        location else t) }, ?_, ?_, ?_, ?_⟩
    · simp [create_table, hloc, hgate, hfind, hstaged]
    · apply find?_map_replace
      · simp [sameIdentPred, createdRow]
      · rw [hfind]; rfl
    · intro t ht hf
      exact List.mem_map.mpr ⟨t, ht, by simp [hf]⟩
    · exact List.length_map _ _
  · intro hcommitted
    have hc : create_table namespace_id table table_id request metadata_location st
        = .error tableAlreadyExistsErr := by
      simp [create_table, hloc, hgate, hfind, hcommitted]
    exact ⟨hc, rfl, rfl, by simp [create_table_run, hc]⟩

/-- Witness for C2: overwriting the staged sample table succeeds and
re-creating the committed sample table is refused. -/
theorem create_table_upsert_rule_witness :
    (sampleCreateRequest.location = some "s3://b/s2" ∧
      namespaceActiveGate sampleState 10 = true ∧
      sampleState.tables.find? (sameIdentPred 10 "s") = some sampleStagedTable ∧
      sampleStagedTable.metadata_location = none ∧
      ∃ st', create_table 10 ⟨["ns"], "s"⟩ 201 sampleCreateRequest
          (some "s3://b/s2/m1") sampleState =
        .ok (st', buildInitialMetadata "s3://b/s2" sampleCreateRequest 201)) ∧
    (sampleState.tables.find? (sameIdentPred 10 "t") = some sampleTable ∧
      create_table 10 ⟨["ns"], "t"⟩ 202
        { sampleCreateRequest with name := "t" } (some "s3://b/t/m1") sampleState =
        .error tableAlreadyExistsErr) := by
  constructor
  · refine ⟨rfl, by decide, by decide, rfl, ?_⟩
    obtain ⟨st', h, -⟩ :=
      (create_table_upsert_rule 10 ⟨["ns"], "s"⟩ 201 sampleCreateRequest
        (some "s3://b/s2/m1") sampleState "s3://b/s2" sampleStagedTable rfl
        (by decide) (by decide)).1 rfl
    exact ⟨st', h⟩
  · refine ⟨by decide, ?_⟩
    exact ((create_table_upsert_rule 10 ⟨["ns"], "t"⟩ 202
      { sampleCreateRequest with name := "t" } (some "s3://b/t/m1") sampleState
      "s3://b/s2" sampleTable rfl (by decide) (by decide)).2 (by decide)).1

theorem applyTableUpdates_error_of_guard_violation
    (pu : Nat) (pl : String) (us : List TableUpdate)
    (hv : (∃ u, TableUpdate.assignUuid u ∈ us ∧ u ≠ pu) ∨
          (∃ l, TableUpdate.setLocation l ∈ us ∧ l ≠ pl)) :
    ∀ b, ∃ e, applyTableUpdates pu pl b us = .error e := by
  induction us with
  | nil =>
    exfalso
    rcases hv with ⟨u, hu, _⟩ | ⟨l, hl, _⟩
    · simp at hu
    · simp at hl
  | cons u0 rest ih =>
    intro b
    cases u0 with
    | assignUuid u1 =>
      by_cases h1 : u1 = pu
      · have hv' : (∃ u, TableUpdate.assignUuid u ∈ rest ∧ u ≠ pu) ∨
            (∃ l, TableUpdate.setLocation l ∈ rest ∧ l ≠ pl) := by
          rcases hv with ⟨u, hu, hne⟩ | ⟨l, hl, hne⟩
          · rcases List.mem_cons.mp hu with heq | hmem
            · exact absurd ((TableUpdate.assignUuid.inj heq).trans h1) hne
            · exact Or.inl ⟨u, hmem, hne⟩
          · rcases List.mem_cons.mp hl with heq | hmem
            · exact absurd heq (by simp)
            · exact Or.inr ⟨l, hmem, hne⟩
        obtain ⟨e, he⟩ := ih hv' b
        exact ⟨e, by simp [applyTableUpdates, applyTableUpdate, h1, he,
          except_ok_bind]⟩
      · exact ⟨assignUuidNotAllowedErr,
          by simp [applyTableUpdates, applyTableUpdate, h1, except_error_bind]⟩
    | setLocation l1 =>
      by_cases h1 : l1 = pl
      · have hv' : (∃ u, TableUpdate.assignUuid u ∈ rest ∧ u ≠ pu) ∨
            (∃ l, TableUpdate.setLocation l ∈ rest ∧ l ≠ pl) := by
          rcases hv with ⟨u, hu, hne⟩ | ⟨l, hl, hne⟩
          · rcases List.mem_cons.mp hu with heq | hmem
            · exact absurd heq (by simp)
            · exact Or.inl ⟨u, hmem, hne⟩
          · rcases List.mem_cons.mp hl with heq | hmem
            · exact absurd ((TableUpdate.setLocation.inj heq).trans h1) hne
            · exact Or.inr ⟨l, hmem, hne⟩
        obtain ⟨e, he⟩ := ih hv' b
        exact ⟨e, by simp [applyTableUpdates, applyTableUpdate, h1, he,
          except_ok_bind]⟩
      · exact ⟨setLocationNotAllowedErr,
          by simp [applyTableUpdates, applyTableUpdate, h1, except_error_bind]⟩
    | setProperties kvs =>
      have hv' : (∃ u, TableUpdate.assignUuid u ∈ rest ∧ u ≠ pu) ∨
          (∃ l, TableUpdate.setLocation l ∈ rest ∧ l ≠ pl) := by
        rcases hv with ⟨u, hu, hne⟩ | ⟨l, hl, hne⟩
        · rcases List.mem_cons.mp hu with heq | hmem
          · exact absurd heq (by simp)
          · exact Or.inl ⟨u, hmem, hne⟩
        · rcases List.mem_cons.mp hl with heq | hmem
          · exact absurd heq (by simp)
          · exact Or.inr ⟨l, hmem, hne⟩
      obtain ⟨e, he⟩ := ih hv' (applyAggregate b (.setProperties kvs))
      exact ⟨e, by simp [applyTableUpdates, applyTableUpdate, he, except_ok_bind]⟩
    | removeProperties ks =>
      have hv' : (∃ u, TableUpdate.assignUuid u ∈ rest ∧ u ≠ pu) ∨
          (∃ l, TableUpdate.setLocation l ∈ rest ∧ l ≠ pl) := by
        rcases hv with ⟨u, hu, hne⟩ | ⟨l, hl, hne⟩
        · rcases List.mem_cons.mp hu with heq | hmem
          · exact absurd heq (by simp)
          · exact Or.inl ⟨u, hmem, hne⟩
        · rcases List.mem_cons.mp hl with heq | hmem
          · exact absurd heq (by simp)
          · exact Or.inr ⟨l, hmem, hne⟩
      obtain ⟨e, he⟩ := ih hv' (applyAggregate b (.removeProperties ks))
      exact ⟨e, by simp [applyTableUpdates, applyTableUpdate, he, except_ok_bind]⟩

theorem apply_commits_error_of_guard_violation
    (commits : List CommitContext) (ctx : CommitContext)
    (hc : ctx ∈ commits)
    (hv : (∃ u, TableUpdate.assignUuid u ∈ ctx.updates ∧ u ≠ ctx.metadata.uuid) ∨
          (∃ l, TableUpdate.setLocation l ∈ ctx.updates ∧
            l ≠ ctx.metadata.location)) :
    ∀ fresh, ∃ e, apply_commits fresh commits = .error e := by
  induction commits with
  | nil => exact absurd hc (by simp)
  | cons c0 rest ih =>
    intro fresh
    rcases List.mem_cons.mp hc with heq | hmem
    · subst heq
      obtain ⟨e, he⟩ :=
        applyTableUpdates_error_of_guard_violation _ _ _ hv ctx.metadata
      exact ⟨e, by simp [apply_commits, he, except_error_bind]⟩
    · cases hres : applyTableUpdates c0.metadata.uuid c0.metadata.location
          c0.metadata c0.updates with
      | error e => exact ⟨e, by simp [apply_commits, hres, except_error_bind]⟩
      | ok b' =>
        obtain ⟨e, he⟩ := ih hmem (fresh + 1)
        exact ⟨e, by simp [apply_commits, hres, he, except_ok_bind,
          except_error_bind]⟩

/-- C3: in the update loop of `apply_commits`, an `AssignUuid` differing
from the current metadata uuid fails the whole commit with
`BadRequest/AssignUuidNotAllowed` while an equal uuid is a no-op (the
builder is returned unchanged, nothing reaches the aggregate); likewise
`SetLocation` against the current location with
`BadRequest/SetLocationNotAllowed`. -/
theorem apply_commits_uuid_location_guards :
    (∀ (pu : Nat) (pl : String) (b : TableMetadata),
      applyTableUpdate pu pl b (.assignUuid pu) = .ok b) ∧
    (∀ (pu u : Nat) (pl : String) (b : TableMetadata), u ≠ pu →
      applyTableUpdate pu pl b (.assignUuid u) = .error assignUuidNotAllowedErr) ∧
    (∀ (pu : Nat) (pl : String) (b : TableMetadata),
      applyTableUpdate pu pl b (.setLocation pl) = .ok b) ∧
    (∀ (pu : Nat) (pl l : String) (b : TableMetadata), l ≠ pl →
      applyTableUpdate pu pl b (.setLocation l) = .error setLocationNotAllowedErr) ∧
    assignUuidNotAllowedErr.code = 400 ∧
    assignUuidNotAllowedErr.errType = "AssignUuidNotAllowed" ∧
    setLocationNotAllowedErr.code = 400 ∧
    setLocationNotAllowedErr.errType = "SetLocationNotAllowed" ∧
    (∀ (fresh : Nat) (commits : List CommitContext) (ctx : CommitContext)
      (u : Nat), ctx ∈ commits → TableUpdate.assignUuid u ∈ ctx.updates →
      u ≠ ctx.metadata.uuid → ∃ e, apply_commits fresh commits = .error e) ∧
    (∀ (fresh : Nat) (commits : List CommitContext) (ctx : CommitContext)
      (l : String), ctx ∈ commits → TableUpdate.setLocation l ∈ ctx.updates →
      l ≠ ctx.metadata.location → ∃ e, apply_commits fresh commits = .error e) := by
  refine ⟨?_, ?_, ?_, ?_, rfl, rfl, rfl, rfl, ?_, ?_⟩
  · intro pu pl b; simp [applyTableUpdate]
  · intro pu u pl b h; simp [applyTableUpdate, h]
  · intro pu pl b; simp [applyTableUpdate]
  · intro pu pl l b h; simp [applyTableUpdate, h]
  · intro fresh commits ctx u hc hu hne
    exact apply_commits_error_of_guard_violation commits ctx hc
      (Or.inl ⟨u, hu, hne⟩) fresh
  · intro fresh commits ctx l hc hl hne
    exact apply_commits_error_of_guard_violation commits ctx hc
      (Or.inr ⟨l, hl, hne⟩) fresh

/-- Witness for C3 at concrete updates: uuid 2 against current uuid 1 and
location "s3://x" against current location "s3://b/t". -/
theorem apply_commits_uuid_location_guards_witness :
    applyTableUpdate 1 "s3://b/t" sampleMetadata (.assignUuid 1) =
      .ok sampleMetadata ∧
    ((2 : Nat) ≠ 1 ∧ applyTableUpdate 1 "s3://b/t" sampleMetadata (.assignUuid 2) =
      .error assignUuidNotAllowedErr) ∧
    (("s3://x" : String) ≠ "s3://b/t" ∧
      applyTableUpdate 1 "s3://b/t" sampleMetadata (.setLocation "s3://x") =
        .error setLocationNotAllowedErr) := by
  refine ⟨apply_commits_uuid_location_guards.1 1 "s3://b/t" sampleMetadata,
    ⟨by decide, ?_⟩, ⟨by decide, ?_⟩⟩
  · exact apply_commits_uuid_location_guards.2.1 1 2 "s3://b/t" sampleMetadata
      (by decide)
  · exact apply_commits_uuid_location_guards.2.2.2.1 1 "s3://b/t" "s3://x"
      sampleMetadata (by decide)

/-- C5 is false as stated: because the stored location is interpolated
into a `LIKE` pattern, its unescaped `_` characters match any single
character.  For the stored location `s3://my_bucket/my_table` the query
path `s3://myXbucket/myXtable/data/foo` — of which the stored location is
not a prefix — still returns the table. -/
theorem location_lookup_like_wildcard_counterexample :
    get_table_metadata_by_s3_location 1 "s3://myXbucket/myXtable/data/foo"
      false wildcardState =
      .ok { table := ⟨["ns"], "w"⟩, table_id := 300, warehouse_id := 1,
            location := "s3://my_bucket/my_table",
            metadata_location := some "s3://my_bucket/my_table/m0",
            storage_secret_ident := some 9, storage_profile := 7 } ∧
    likeStartsWith "s3://my_bucket/my_table" "s3://myXbucket/myXtable/data/foo"
      = false := by
  exact ⟨rfl, by decide⟩

/-- C5 (amended): `get_table_metadata_by_s3_location` returns the table
`t` exactly when the query path matches `t.table_location` interpreted as
a SQL `LIKE` pattern followed by anything — unescaped `_` and `%` in the
stored location act as wildcards; for wildcard-free locations this is
literal prefix, so exact matches and subpaths succeed — with
`length(table_location) ≤ length(path)`, and a path matching no stored
location's pattern fails with `NotFound/NoSuchTableError`. -/
theorem location_lookup_prefix_semantics
    (warehouse_id : Nat) (location : String) (include_staged : Bool)
    (st : CatalogState) :
    (∀ t n w, t ∈ st.tables → activeWarehouseOf st t = some (n, w) →
      n.warehouse_id = warehouse_id →
      likePatternMatches t.table_location location = true →
      t.table_location.length ≤ location.length →
      (∀ t' ∈ st.tables,
        s3LocationMatches st warehouse_id location t' = true → t' = t) →
      (include_staged = true ∨ t.metadata_location.isSome = true) →
      get_table_metadata_by_s3_location warehouse_id location include_staged st =
        .ok { table := ⟨n.namespace_name, t.table_name⟩, table_id := t.table_id,
              warehouse_id := warehouse_id, location := t.table_location,
              metadata_location := t.metadata_location,
              storage_secret_ident := w.storage_secret_id,
              storage_profile := w.storage_profile }) ∧
    ((∀ t ∈ st.tables,
        ¬(likePatternMatches t.table_location location = true ∧
          t.table_location.length ≤ location.length)) →
      get_table_metadata_by_s3_location warehouse_id location include_staged st =
        .error noSuchTableErr ∧
      noSuchTableErr.code = 404 ∧ noSuchTableErr.errType = "NoSuchTableError") := by
  constructor
  · intro t n w ht hnw hwid hpre hlen huniq hvis
    have hmatch : s3LocationMatches st warehouse_id location t = true := by
      simp [s3LocationMatches, hnw, hwid, hpre, hlen]
    cases hfil : st.tables.filter
        (fun t => s3LocationMatches st warehouse_id location t) with
    | nil =>
      exfalso
      have : t ∈ st.tables.filter
          (fun t => s3LocationMatches st warehouse_id location t) :=
        List.mem_filter.mpr ⟨ht, hmatch⟩
      rw [hfil] at this
      simp at this
    | cons x xs =>
      have hx : x ∈ st.tables.filter
          (fun t => s3LocationMatches st warehouse_id location t) := by
        rw [hfil]; exact List.mem_cons_self x xs
      obtain ⟨hxmem, hxmatch⟩ := List.mem_filter.mp hx
      have hxt : x = t := huniq x hxmem hxmatch
      subst hxt
      have hstaged : (!include_staged && x.metadata_location.isNone) = false := by
        rcases hvis with h | h
        · simp [h]
        · have hn : x.metadata_location.isNone = false := by
            cases hm : x.metadata_location with
            | none => rw [hm] at h; simp at h
            | some v => rfl
          simp [hn]
      unfold get_table_metadata_by_s3_location
      rw [hfil]
      simp only [hstaged, Bool.false_eq_true, if_false, hnw]
  · intro hnone
    have hfil : st.tables.filter
        (fun t => s3LocationMatches st warehouse_id location t) = [] := by
      apply List.filter_eq_nil_iff.mpr
      intro t' ht'
      have hn := hnone t' ht'
      simp only [s3LocationMatches, Bool.and_eq_true, decide_eq_true_eq]
      intro hcon
      exact hn ⟨hcon.1.2, hcon.2⟩
    refine ⟨?_, rfl, rfl⟩
    unfold get_table_metadata_by_s3_location
    rw [hfil]

/-- Witness for C5 on the sample state (a wildcard-free location): a
subpath of the committed table's location resolves to it, and a strictly
shorter path fails. -/
theorem location_lookup_prefix_semantics_witness :
    (sampleTable ∈ sampleState.tables ∧
      activeWarehouseOf sampleState sampleTable =
        some (sampleNamespace, sampleWarehouse) ∧
      likePatternMatches "s3://b/t" "s3://b/t/data/f.parquet" = true ∧
      get_table_metadata_by_s3_location 1 "s3://b/t/data/f.parquet" false
          sampleState =
        .ok { table := ⟨["ns"], "t"⟩, table_id := 100, warehouse_id := 1,
              location := "s3://b/t", metadata_location := some "s3://b/t/m0",
              storage_secret_ident := some 9, storage_profile := 7 }) ∧
    get_table_metadata_by_s3_location 1 "s3://b/" false sampleState =
      .error noSuchTableErr := by
  constructor
  · refine ⟨by decide, by decide, by decide, ?_⟩
    exact (location_lookup_prefix_semantics 1 "s3://b/t/data/f.parquet" false
      sampleState).1 sampleTable sampleNamespace sampleWarehouse (by decide)
      (by decide) (by decide) (by decide) (by decide) (by decide)
      (Or.inr (by decide))
  · exact ((location_lookup_prefix_semantics 1 "s3://b/" false sampleState).2
      (by decide)).1

/-- C8: a cross-namespace `rename_table` whose destination namespace does
not exist in the warehouse, or for which no row bears the given table id
with the source name under an active warehouse id, fails with the single
error `NotFound/RenameTableIdOrNamespaceNotFound` and modifies no row. -/
theorem rename_cross_namespace_not_found
    (warehouse_id : Nat) (source_id : Nat) (source destination : TableIdent)
    (st : CatalogState)
    (hdiff : source.namespaceName ≠ destination.namespaceName)
    (hbad :
      (¬ ∃ n ∈ st.namespaces, n.warehouse_id = warehouse_id ∧
        n.namespace_name = destination.namespaceName) ∨
      ¬ ((∃ w ∈ st.warehouses, w.warehouse_id = warehouse_id ∧ w.active = true) ∧
         ∃ t ∈ st.tables, t.table_id = source_id ∧ t.table_name = source.name)) :
    rename_table warehouse_id source_id source destination st =
      .error renameTableIdOrNamespaceNotFoundErr ∧
    renameTableIdOrNamespaceNotFoundErr.code = 404 ∧
    renameTableIdOrNamespaceNotFoundErr.errType =
      "RenameTableIdOrNamespaceNotFound" ∧
    rename_table_run warehouse_id source_id source destination st = st := by
  have hmain : rename_table warehouse_id source_id source destination st =
      .error renameTableIdOrNamespaceNotFoundErr := by
    cases hf : st.namespaces.find? (fun n =>
        decide (n.warehouse_id = warehouse_id ∧
          n.namespace_name = destination.namespaceName)) with
    | none =>
      simp only [rename_table]
      rw [if_neg hdiff, hf]
    | some destNs =>
      have hgate : (st.warehouses.any (fun w =>
          decide (w.warehouse_id = warehouse_id ∧ w.active = true)) &&
          st.tables.any (fun t =>
            decide (t.table_id = source_id ∧ t.table_name = source.name)))
          = false := by
        rcases hbad with h | h
        · exfalso
          have hmem := List.mem_of_find?_eq_some hf
          have hsat := List.find?_some hf
          simp only [decide_eq_true_eq] at hsat
          exact h ⟨destNs, hmem, hsat⟩
        · cases hA : st.warehouses.any (fun w =>
              decide (w.warehouse_id = warehouse_id ∧ w.active = true)) with
          | false => rfl
          | true =>
            cases hB : st.tables.any (fun t =>
                decide (t.table_id = source_id ∧ t.table_name = source.name)) with
            | false => rfl
            | true =>
              exfalso
              simp only [List.any_eq_true, decide_eq_true_eq] at hA hB
              exact h ⟨hA, hB⟩
      simp only [rename_table]
      rw [if_neg hdiff, hf, hgate]
      simp
  exact ⟨hmain, rfl, rfl, by simp [rename_table_run, hmain]⟩

/-- Witness for C8: renaming the committed sample table into a namespace
that does not exist fails with the 404 and keeps the state. -/
theorem rename_cross_namespace_not_found_witness :
    ((⟨["ns"], "t"⟩ : TableIdent).namespaceName ≠
      (⟨["no"], "t2"⟩ : TableIdent).namespaceName) ∧
    (¬ ∃ n ∈ sampleState.namespaces, n.warehouse_id = 1 ∧
      n.namespace_name = (⟨["no"], "t2"⟩ : TableIdent).namespaceName) ∧
    rename_table 1 100 ⟨["ns"], "t"⟩ ⟨["no"], "t2"⟩ sampleState =
      .error renameTableIdOrNamespaceNotFoundErr ∧
    rename_table_run 1 100 ⟨["ns"], "t"⟩ ⟨["no"], "t2"⟩ sampleState =
      sampleState := by
  have h := rename_cross_namespace_not_found 1 100 ⟨["ns"], "t"⟩ ⟨["no"], "t2"⟩
    sampleState (by decide) (Or.inl (by decide))
  exact ⟨by decide, by decide, h.1, h.2.2.2⟩

theorem assertAllRequirements_error (requirements : List TableRequirement)
    (metadata : TableMetadata) (tableExists : Bool) (r : TableRequirement)
    (e : ErrorModel) (hr : r ∈ requirements)
    (hfail : TableRequirement.assert r metadata tableExists = .error e) :
    ∃ e', assertAllRequirements requirements metadata tableExists = .error e' := by
  induction requirements with
  | nil => simp at hr
  | cons r0 rest ih =>
    rcases List.mem_cons.mp hr with heq | hmem
    · subst heq
      exact ⟨e, by simp [assertAllRequirements, hfail, except_error_bind]⟩
    · cases h0 : TableRequirement.assert r0 metadata tableExists with
      | error e0 =>
        exact ⟨e0, by simp [assertAllRequirements, h0, except_error_bind]⟩
      | ok u =>
        obtain ⟨e', he'⟩ := ih hmem
        exact ⟨e', by simp [assertAllRequirements, h0, except_ok_bind, he']⟩

theorem checkRequirements_error (cs : List CommitContext) (c : CommitContext)
    (r : TableRequirement) (e : ErrorModel) (hc : c ∈ cs)
    (hr : r ∈ c.requirements)
    (hfail : TableRequirement.assert r c.metadata c.metadata_location.isSome =
      .error e) :
    ∃ e', checkRequirements cs = .error e' := by
  induction cs with
  | nil => simp at hc
  | cons c0 rest ih =>
    rcases List.mem_cons.mp hc with heq | hmem
    · subst heq
      obtain ⟨e', he'⟩ := assertAllRequirements_error _ _ _ r e hr hfail
      exact ⟨e', by simp [checkRequirements, he', except_error_bind]⟩
    · cases h0 : assertAllRequirements c0.requirements c0.metadata
          c0.metadata_location.isSome with
      | error e0 => exact ⟨e0, by simp [checkRequirements, h0, except_error_bind]⟩
      | ok u =>
        obtain ⟨e', he'⟩ := ih hmem
        exact ⟨e', by simp [checkRequirements, h0, except_ok_bind, he']⟩

/-- C1: a commit transaction in which some table's requirement assertion
fails returns an error, and the observable state of the enclosing write
transaction is unchanged — no table's metadata or metadata_location moves. -/
theorem commit_aborts_on_requirement_failure
    (request : CommitTransactionRequest) (table_ids : List (TableIdent × Nat))
    (fresh : Nat) (st : CatalogState) (contexts : List CommitContext)
    (c : CommitContext) (r : TableRequirement) (e : ErrorModel)
    (hctx : get_commit_context request table_ids st = .ok contexts)
    (hc : c ∈ contexts) (hr : r ∈ c.requirements)
    (hfail : TableRequirement.assert r c.metadata c.metadata_location.isSome =
      .error e) :
    (∀ result, commit_table_transaction request table_ids fresh st ≠ .ok result) ∧
    commit_table_transaction_run request table_ids fresh st = st := by
  have hmain : ∃ e',
      commit_table_transaction request table_ids fresh st = .error e' := by
    by_cases hlen : contexts.length > MAX_PARAMETERS / 4
    · exact ⟨tooManyTablesForCommitErr,
        by simp [commit_table_transaction, hctx, except_ok_bind, hlen]⟩
    · obtain ⟨e', he'⟩ := checkRequirements_error contexts c r e hc hr hfail
      exact ⟨e', by simp [commit_table_transaction, hctx, except_ok_bind, hlen,
        he', except_error_bind]⟩
  obtain ⟨e', he'⟩ := hmain
  constructor
  · intro result hres
    rw [he'] at hres
    exact Except.noConfusion hres
  · simp [commit_table_transaction_run, he']

/-- Witness for C1: the sample transaction whose `NotExist` requirement
fails on the committed sample table aborts and leaves the state intact. -/
theorem commit_aborts_on_requirement_failure_witness :
    get_commit_context sampleCommitRequestBad sampleTableIds sampleState =
      .ok [sampleContextBad] ∧
    TableRequirement.assert .notExist sampleContextBad.metadata
      sampleContextBad.metadata_location.isSome =
      .error (requirementFailedErr "Table exists") ∧
    (∀ result, commit_table_transaction sampleCommitRequestBad sampleTableIds 0
      sampleState ≠ .ok result) ∧
    commit_table_transaction_run sampleCommitRequestBad sampleTableIds 0
      sampleState = sampleState := by
  have h := commit_aborts_on_requirement_failure sampleCommitRequestBad
    sampleTableIds 0 sampleState [sampleContextBad] sampleContextBad .notExist
    (requirementFailedErr "Table exists") rfl
    (List.mem_singleton.mpr rfl) (List.mem_singleton.mpr rfl) rfl
  exact ⟨rfl, rfl, h.1, h.2⟩

theorem getCommitContextList_length (table_ids : List (TableIdent × Nat))
    (records : List CommitRecord) (changes : List CommitTableRequest)
    (contexts : List CommitContext)
    (h : getCommitContextList table_ids records changes = .ok contexts) :
    contexts.length = changes.length := by
  induction changes generalizing contexts with
  | nil =>
    simp only [getCommitContextList] at h
    cases h
    rfl
  | cons ch rest ih =>
    simp only [getCommitContextList] at h
    split at h
    · exact Except.noConfusion h
    · split at h
      · exact Except.noConfusion h
      · split at h
        · exact Except.noConfusion h
        · cases hrest : getCommitContextList table_ids records rest with
          | error e =>
            rw [hrest] at h
            exact Except.noConfusion h
          | ok ctxs =>
            rw [hrest] at h
            simp only [except_ok_bind] at h
            cases h
            simp [ih ctxs hrest]

/-- C7 is false as stated: the bound check is not step 1.  A transaction
with 7501 changes whose first change lacks an identifier is rejected with
`BadRequest/TableIdentifierRequired` from the context-building step, not
with `BadRequest/TooManyTablesForCommit` as the claim requires. -/
theorem commit_bound_check_not_first_counterexample :
    commit_table_transaction
      { table_changes := List.replicate 7501
          { identifier := none, requirements := [], updates := [] } }
      [] 0 { warehouses := [], namespaces := [], tables := [] } =
      .error tableIdentifierRequiredErr ∧
    7501 > MAX_PARAMETERS / 4 ∧
    tableIdentifierRequiredErr ≠ tooManyTablesForCommitErr := by
  exact ⟨rfl, by decide, by decide⟩

/-- C7 (amended): `commit_table_transaction` does reject transactions
with more than `MAX_PARAMETERS / 4 = 7500` changes with
`BadRequest/TooManyTablesForCommit`, but the check runs after the
metadata snapshot is loaded and the per-change identifiers are validated,
so errors from those steps take precedence. -/
theorem commit_bound_check_amended
    (request : CommitTransactionRequest) (table_ids : List (TableIdent × Nat))
    (fresh : Nat) (st : CatalogState)
    (hok : (get_commit_context request table_ids st).isOk = true)
    (hlen : request.table_changes.length > MAX_PARAMETERS / 4) :
    commit_table_transaction request table_ids fresh st =
      .error tooManyTablesForCommitErr ∧
    tooManyTablesForCommitErr.code = 400 ∧
    tooManyTablesForCommitErr.errType = "TooManyTablesForCommit" := by
  cases hctx : get_commit_context request table_ids st with
  | error e => rw [hctx] at hok; simp [Except.isOk, Except.toBool] at hok
  | ok contexts =>
    have hclen : contexts.length = request.table_changes.length :=
      getCommitContextList_length _ _ _ _ hctx
    refine ⟨?_, rfl, rfl⟩
    have hlen' : contexts.length > MAX_PARAMETERS / 4 := by
      rw [hclen]; exact hlen
    simp [commit_table_transaction, hctx, except_ok_bind, hlen']

theorem getCommitContextList_replicate_ok (table_ids : List (TableIdent × Nat))
    (records : List CommitRecord) (ch : CommitTableRequest)
    (ident : TableIdent) (table_id : Nat) (record : CommitRecord)
    (hid : ch.identifier = some ident)
    (hlk : lookupTableId table_ids ident = some table_id)
    (hrec : records.find? (fun m => decide (m.table_id = table_id)) =
      some record) :
    ∀ n, (getCommitContextList table_ids records (List.replicate n ch)).isOk
      = true := by
  intro n
  induction n with
  | zero => rfl
  | succ n ih =>
    rw [List.replicate_succ]
    simp only [getCommitContextList, hid, hlk, hrec]
    cases hrest : getCommitContextList table_ids records (List.replicate n ch) with
    | error e =>
      rw [hrest] at ih
      exact absurd ih (by simp [Except.isOk, Except.toBool])
    | ok ctxs => simp [except_ok_bind, Except.isOk, Except.toBool]

/-- Witness for the amended C7: 7501 resolvable changes on the sample
state are rejected with `TooManyTablesForCommit`. -/
theorem commit_bound_check_amended_witness :
    (get_commit_context sampleOversizedRequest sampleTableIds sampleState).isOk
      = true ∧
    sampleOversizedRequest.table_changes.length > MAX_PARAMETERS / 4 ∧
    commit_table_transaction sampleOversizedRequest sampleTableIds 0 sampleState
      = .error tooManyTablesForCommitErr := by
  have hok' := getCommitContextList_replicate_ok sampleTableIds
    (fetchCommitRecords (sampleTableIds.map (fun p => p.2)) sampleState)
    sampleCommitChangeOk ⟨["ns"], "t"⟩ 100 sampleCommitRecord (by rfl) (by rfl)
    (by rfl) 7501
  have hok : (get_commit_context sampleOversizedRequest sampleTableIds
      sampleState).isOk = true := hok'
  have hlen : sampleOversizedRequest.table_changes.length > MAX_PARAMETERS / 4 := by
    simp only [sampleOversizedRequest, List.length_replicate]
    decide
  exact ⟨hok, hlen, (commit_bound_check_amended sampleOversizedRequest
    sampleTableIds 0 sampleState hok hlen).1⟩

theorem identsLookup_mem (l : List (TableIdent × Option Nat)) (i : TableIdent)
    (v : Option Nat) (h : identsLookup l i = some v) : (i, v) ∈ l := by
  cases hf : l.find? (fun p => decide (p.1 = i)) with
  | none => rw [identsLookup, hf] at h; simp at h
  | some q =>
    rw [identsLookup, hf] at h
    simp only [Option.map_some'] at h
    have hq := List.mem_of_find?_eq_some hf
    have hpred := List.find?_some hf
    simp only [decide_eq_true_eq] at hpred
    have : q = (i, v) := Prod.ext hpred (Option.some.inj h)
    rwa [this] at hq

theorem identsLookup_eq_some (l : List (TableIdent × Option Nat))
    (i : TableIdent) (v : Option Nat) (hmem : (i, v) ∈ l)
    (hval : ∀ q ∈ l, q.1 = i → q.2 = v) :
    identsLookup l i = some v := by
  cases hf : l.find? (fun p => decide (p.1 = i)) with
  | none =>
    exfalso
    have := List.find?_eq_none.mp hf (i, v) hmem
    simp at this
  | some q =>
    have hq := List.mem_of_find?_eq_some hf
    have hpred := List.find?_some hf
    simp only [decide_eq_true_eq] at hpred
    have hv := hval q hq hpred
    simp [identsLookup, hf, hv]

theorem identsLookup_append_some (l1 l2 : List (TableIdent × Option Nat))
    (i : TableIdent) (v : Option Nat) (h : identsLookup l1 i = some v) :
    identsLookup (l1 ++ l2) i = some v := by
  rw [identsLookup, List.find?_append]
  cases hf : l1.find? (fun p => decide (p.1 = i)) with
  | none => rw [identsLookup, hf] at h; simp at h
  | some q =>
    rw [identsLookup, hf] at h
    simpa using h

theorem identsLookup_append_none (l1 l2 : List (TableIdent × Option Nat))
    (i : TableIdent) (h : identsLookup l1 i = none) :
    identsLookup (l1 ++ l2) i = identsLookup l2 i := by
  rw [identsLookup, List.find?_append]
  cases hf : l1.find? (fun p => decide (p.1 = i)) with
  | none => simp [identsLookup]
  | some q => rw [identsLookup, hf] at h; simp at h

theorem identFoundEntries_sound (warehouse_id : Nat) (tables : List TableIdent)
    (include_staged : Bool) (st : CatalogState) (q : TableIdent × Option Nat)
    (hq : q ∈ identFoundEntries warehouse_id tables include_staged st) :
    ∃ t n w, t ∈ st.tables ∧ activeWarehouseOf st t = some (n, w) ∧
      n.warehouse_id = warehouse_id ∧
      q.1 = ⟨n.namespace_name, t.table_name⟩ ∧ q.1 ∈ tables ∧
      (t.metadata_location.isSome = true ∨ include_staged = true) ∧
      q.2 = some t.table_id := by
  obtain ⟨p, hp, hpq⟩ := List.mem_filterMap.mp hq
  by_cases hvis : (!p.2.metadata_location.isNone || include_staged) = true
  case neg => rw [if_neg hvis] at hpq; exact absurd hpq (by simp)
  rw [if_pos hvis] at hpq
  obtain ⟨t, ht, hmt⟩ := List.mem_filterMap.mp hp
  cases hnw : activeWarehouseOf st t with
  | none => rw [hnw] at hmt; exact absurd hmt (by simp)
  | some nw =>
    obtain ⟨n, w⟩ := nw
    rw [hnw] at hmt
    have hmt' : (if (decide (n.warehouse_id = warehouse_id) &&
        decide ((⟨n.namespace_name, t.table_name⟩ : TableIdent) ∈ tables)) = true
        then some (n, t) else none) = some p := hmt
    by_cases hcond : (decide (n.warehouse_id = warehouse_id) &&
        decide ((⟨n.namespace_name, t.table_name⟩ : TableIdent) ∈ tables)) = true
    case neg => rw [if_neg hcond] at hmt'; exact absurd hmt' (by simp)
    rw [if_pos hcond] at hmt'
    have hpe : p = (n, t) := (Option.some.inj hmt').symm
    subst hpe
    obtain ⟨hwid, hin⟩ := by simpa using hcond
    have hqe : q = ((⟨n.namespace_name, t.table_name⟩ : TableIdent),
        some t.table_id) := (Option.some.inj hpq).symm
    subst hqe
    refine ⟨t, n, w, ht, hnw, hwid, rfl, hin, ?_, rfl⟩
    rcases Bool.or_eq_true_iff.mp hvis with h | h
    · left
      cases hm : t.metadata_location with
      | none => rw [hm] at h; simp at h
      | some v => rfl
    · right; exact h

theorem identFoundEntries_complete (warehouse_id : Nat)
    (tables : List TableIdent) (include_staged : Bool) (st : CatalogState)
    (t : TableRow) (n : NamespaceRow) (w : WarehouseRow)
    (ht : t ∈ st.tables) (hnw : activeWarehouseOf st t = some (n, w))
    (hwid : n.warehouse_id = warehouse_id)
    (hin : (⟨n.namespace_name, t.table_name⟩ : TableIdent) ∈ tables)
    (hvis : t.metadata_location.isSome = true ∨ include_staged = true) :
    ((⟨n.namespace_name, t.table_name⟩ : TableIdent), some t.table_id) ∈
      identFoundEntries warehouse_id tables include_staged st := by
  apply List.mem_filterMap.mpr
  refine ⟨(n, t), ?_, ?_⟩
  · apply List.mem_filterMap.mpr
    refine ⟨t, ht, ?_⟩
    have hcond : (decide (n.warehouse_id = warehouse_id) &&
        decide ((⟨n.namespace_name, t.table_name⟩ : TableIdent) ∈ tables))
        = true := by simp [hwid, hin]
    rw [hnw]
    show (if (decide (n.warehouse_id = warehouse_id) &&
        decide ((⟨n.namespace_name, t.table_name⟩ : TableIdent) ∈ tables)) = true
      then some (n, t) else none) = some (n, t)
    rw [if_pos hcond]
  · have hb : (!t.metadata_location.isNone || include_staged) = true := by
      rcases hvis with h | h
      · cases hm : t.metadata_location with
        | none => rw [hm] at h; simp at h
        | some v => simp [hm]
      · simp [h]
    rw [if_pos hb]

theorem identMissingEntries_sound (warehouse_id : Nat)
    (tables : List TableIdent) (include_staged : Bool) (st : CatalogState)
    (q : TableIdent × Option Nat)
    (hq : q ∈ identMissingEntries warehouse_id tables include_staged st) :
    q.2 = none ∧ q.1 ∈ tables := by
  obtain ⟨i, hi, hcond⟩ := List.mem_filterMap.mp hq
  by_cases hc : (identsLookup
      (identFoundEntries warehouse_id tables include_staged st) i).isNone = true
  · rw [if_pos hc] at hcond
    have : q = (i, none) := (Option.some.inj hcond).symm
    subst this
    exact ⟨rfl, hi⟩
  · rw [if_neg hc] at hcond
    exact absurd hcond (by simp)

theorem identMissingEntries_complete (warehouse_id : Nat)
    (tables : List TableIdent) (include_staged : Bool) (st : CatalogState)
    (i : TableIdent) (hi : i ∈ tables)
    (hnone : identsLookup
      (identFoundEntries warehouse_id tables include_staged st) i = none) :
    (i, (none : Option Nat)) ∈
      identMissingEntries warehouse_id tables include_staged st := by
  apply List.mem_filterMap.mpr
  refine ⟨i, hi, ?_⟩
  rw [hnone]
  rfl

/-- C6: `table_idents_to_ids` is total over the requested batch: every
requested identifier is a key of the result, with `some uuid` when a
visible matching row exists (committed, or `include_staged`) under an
active warehouse and `none` otherwise; batches over
`MAX_PARAMETERS / 2 = 15000` are refused with `BadRequest/TooManyTables`. -/
theorem table_idents_to_ids_total
    (warehouse_id : Nat) (tables : List TableIdent) (include_staged : Bool)
    (st : CatalogState)
    (huniq : ∀ (i : TableIdent) (t1 t2 : TableRow) (n1 n2 : NamespaceRow)
      (w1 w2 : WarehouseRow), t1 ∈ st.tables → t2 ∈ st.tables →
      activeWarehouseOf st t1 = some (n1, w1) →
      activeWarehouseOf st t2 = some (n2, w2) →
      n1.warehouse_id = warehouse_id → n2.warehouse_id = warehouse_id →
      n1.namespace_name = i.namespaceName → n2.namespace_name = i.namespaceName →
      t1.table_name = i.name → t2.table_name = i.name → t1 = t2) :
    (tables.length > MAX_PARAMETERS / 2 →
      table_idents_to_ids warehouse_id tables include_staged st =
        .error tooManyTablesErr ∧
      tooManyTablesErr.code = 400 ∧ tooManyTablesErr.errType = "TooManyTables") ∧
    (tables.length ≤ MAX_PARAMETERS / 2 →
      ∃ m, table_idents_to_ids warehouse_id tables include_staged st = .ok m ∧
        ∀ i ∈ tables,
          (∀ t n w, t ∈ st.tables → activeWarehouseOf st t = some (n, w) →
            n.warehouse_id = warehouse_id →
            n.namespace_name = i.namespaceName → t.table_name = i.name →
            (t.metadata_location.isSome = true ∨ include_staged = true) →
            identsLookup m i = some (some t.table_id)) ∧
          ((¬ ∃ t n w, t ∈ st.tables ∧ activeWarehouseOf st t = some (n, w) ∧
            n.warehouse_id = warehouse_id ∧
            n.namespace_name = i.namespaceName ∧ t.table_name = i.name ∧
            (t.metadata_location.isSome = true ∨ include_staged = true)) →
            identsLookup m i = some none) ∧
          (identsLookup m i).isSome = true) := by
  constructor
  · intro hgt
    have hne : tables.isEmpty = false := by
      cases tables with
      | nil => simp at hgt
      | cons a l => rfl
    refine ⟨?_, rfl, rfl⟩
    simp [table_idents_to_ids, hne, hgt]
  · intro hle
    by_cases hempty : tables.isEmpty = true
    · refine ⟨[], by simp [table_idents_to_ids, hempty], ?_⟩
      intro i hi
      rw [List.isEmpty_iff.mp hempty] at hi
      simp at hi
    · have hne : tables.isEmpty = false := by simpa using hempty
      have hngt : ¬ (tables.length > MAX_PARAMETERS / 2) := not_lt.mpr hle
      refine ⟨identFoundEntries warehouse_id tables include_staged st ++
        identMissingEntries warehouse_id tables include_staged st,
        by simp [table_idents_to_ids, hne, hngt], ?_⟩
      intro i hi
      have hpos : ∀ t n w, t ∈ st.tables → activeWarehouseOf st t = some (n, w) →
          n.warehouse_id = warehouse_id →
          n.namespace_name = i.namespaceName → t.table_name = i.name →
          (t.metadata_location.isSome = true ∨ include_staged = true) →
          identsLookup (identFoundEntries warehouse_id tables include_staged st ++
            identMissingEntries warehouse_id tables include_staged st) i =
            some (some t.table_id) := by
        intro t n w ht hnw hwid hns hname hvis
        have hii : (⟨n.namespace_name, t.table_name⟩ : TableIdent) = i := by
          rw [hns, hname]
        have hmem := identFoundEntries_complete warehouse_id tables
          include_staged st t n w ht hnw hwid (by rw [hii]; exact hi) hvis
        rw [hii] at hmem
        have hfound : identsLookup
            (identFoundEntries warehouse_id tables include_staged st) i =
            some (some t.table_id) := by
          apply identsLookup_eq_some _ _ _ hmem
          intro q hq hq1
          obtain ⟨t', n', w', ht', hnw', hwid', hq1', hqin, hvis', hq2'⟩ :=
            identFoundEntries_sound warehouse_id tables include_staged st q hq
          rw [hq1] at hq1'
          have hns' : n'.namespace_name = i.namespaceName := by
            have := congrArg TableIdent.namespaceName hq1'
            exact this.symm
          have hname' : t'.table_name = i.name := by
            have := congrArg TableIdent.name hq1'
            exact this.symm
          have : t' = t := huniq i t' t n' n w' w ht' ht hnw' hnw hwid' hwid
            hns' hns hname' hname
          rw [hq2', this]
        exact identsLookup_append_some _ _ _ _ hfound
      have hneg : (¬ ∃ t n w, t ∈ st.tables ∧
          activeWarehouseOf st t = some (n, w) ∧
          n.warehouse_id = warehouse_id ∧
          n.namespace_name = i.namespaceName ∧ t.table_name = i.name ∧
          (t.metadata_location.isSome = true ∨ include_staged = true)) →
          identsLookup (identFoundEntries warehouse_id tables include_staged st
            ++ identMissingEntries warehouse_id tables include_staged st) i =
            some none := by
        intro hno
        have hfnone : identsLookup
            (identFoundEntries warehouse_id tables include_staged st) i = none := by
          cases hlf : identsLookup
              (identFoundEntries warehouse_id tables include_staged st) i with
          | none => rfl
          | some v =>
            exfalso
            have hmem := identsLookup_mem _ _ _ hlf
            obtain ⟨t', n', w', ht', hnw', hwid', hq1', hqin, hvis', hq2'⟩ :=
              identFoundEntries_sound warehouse_id tables include_staged st
                (i, v) hmem
            simp only at hq1' hq2'
            have hns' : n'.namespace_name = i.namespaceName := by
              have := congrArg TableIdent.namespaceName hq1'
              exact this.symm
            have hname' : t'.table_name = i.name := by
              have := congrArg TableIdent.name hq1'
              exact this.symm
            exact hno ⟨t', n', w', ht', hnw', hwid', hns', hname', hvis'⟩
        rw [identsLookup_append_none _ _ _ hfnone]
        have hmmem := identMissingEntries_complete warehouse_id tables
          include_staged st i hi hfnone
        apply identsLookup_eq_some _ _ _ hmmem
        intro q hq hq1
        exact (identMissingEntries_sound warehouse_id tables include_staged st
          q hq).1
      refine ⟨hpos, hneg, ?_⟩
      by_cases hex : ∃ t n w, t ∈ st.tables ∧
          activeWarehouseOf st t = some (n, w) ∧
          n.warehouse_id = warehouse_id ∧
          n.namespace_name = i.namespaceName ∧ t.table_name = i.name ∧
          (t.metadata_location.isSome = true ∨ include_staged = true)
      · obtain ⟨t, n, w, ht, hnw, hwid, hns, hname, hvis⟩ := hex
        rw [hpos t n w ht hnw hwid hns hname hvis]
        rfl
      · rw [hneg hex]
        rfl

/-- Witness for C6 on the sample state: the committed table resolves, the
staged one without opt-in and a missing identifier both map to `none`. -/
theorem table_idents_to_ids_total_witness :
    ∃ m, table_idents_to_ids 1
        [⟨["ns"], "t"⟩, ⟨["ns"], "s"⟩, ⟨["ns"], "zz"⟩] false sampleState =
        .ok m ∧
      identsLookup m ⟨["ns"], "t"⟩ = some (some 100) ∧
      identsLookup m ⟨["ns"], "s"⟩ = some none ∧
      identsLookup m ⟨["ns"], "zz"⟩ = some none := by
  have hmemcases : ∀ t : TableRow, t ∈ sampleState.tables →
      t = sampleTable ∨ t = sampleStagedTable := by
    intro t ht
    simpa [sampleState] using ht
  have huniq : ∀ (i : TableIdent) (t1 t2 : TableRow) (n1 n2 : NamespaceRow)
      (w1 w2 : WarehouseRow), t1 ∈ sampleState.tables →
      t2 ∈ sampleState.tables →
      activeWarehouseOf sampleState t1 = some (n1, w1) →
      activeWarehouseOf sampleState t2 = some (n2, w2) →
      n1.warehouse_id = 1 → n2.warehouse_id = 1 →
      n1.namespace_name = i.namespaceName → n2.namespace_name = i.namespaceName →
      t1.table_name = i.name → t2.table_name = i.name → t1 = t2 := by
    intro i t1 t2 n1 n2 w1 w2 h1 h2 _ _ _ _ _ _ hname1 hname2
    rcases hmemcases t1 h1 with e1 | e1 <;> rcases hmemcases t2 h2 with e2 | e2 <;>
      subst e1 <;> subst e2
    · rfl
    · exfalso
      rw [← hname2] at hname1
      exact absurd hname1 (by decide)
    · exfalso
      rw [← hname2] at hname1
      exact absurd hname1 (by decide)
    · rfl
  obtain ⟨m, hm, hall⟩ := (table_idents_to_ids_total 1
    [⟨["ns"], "t"⟩, ⟨["ns"], "s"⟩, ⟨["ns"], "zz"⟩] false sampleState huniq).2
    (by decide)
  refine ⟨m, hm, ?_, ?_, ?_⟩
  · exact (hall ⟨["ns"], "t"⟩ (by decide)).1 sampleTable sampleNamespace
      sampleWarehouse (by decide) rfl rfl rfl rfl (Or.inl rfl)
  · apply (hall ⟨["ns"], "s"⟩ (by decide)).2.1
    rintro ⟨t, n, w, ht, hnw, hwid, hns, hname, hvis⟩
    rcases hmemcases t ht with e | e <;> subst e
    · exact absurd hname (by decide)
    · rcases hvis with h | h
      · exact absurd h (by decide)
      · exact absurd h (by decide)
  · apply (hall ⟨["ns"], "zz"⟩ (by decide)).2.1
    rintro ⟨t, n, w, ht, hnw, hwid, hns, hname, hvis⟩
    rcases hmemcases t ht with e | e <;> subst e
    · exact absurd hname (by decide)
    · exact absurd hname (by decide)

theorem applyAggregate_uuid (b : TableMetadata) (u : TableUpdate) :
    (applyAggregate b u).uuid = b.uuid := by
  cases u <;> rfl

theorem applyAggregate_location (b : TableMetadata) (u : TableUpdate) :
    (applyAggregate b u).location = b.location := by
  cases u <;> rfl

theorem applyTableUpdate_preserves (pu : Nat) (pl : String)
    (b b1 : TableMetadata) (u : TableUpdate)
    (h : applyTableUpdate pu pl b u = .ok b1) :
    b1.uuid = b.uuid ∧ b1.location = b.location := by
  cases u with
  | assignUuid u1 =>
    simp only [applyTableUpdate] at h
    split at h
    · exact Except.noConfusion h
    · rw [Except.ok.inj h]; exact ⟨rfl, rfl⟩
  | setLocation l1 =>
    simp only [applyTableUpdate] at h
    split at h
    · exact Except.noConfusion h
    · rw [Except.ok.inj h]; exact ⟨rfl, rfl⟩
  | setProperties kvs =>
    simp only [applyTableUpdate] at h
    rw [← Except.ok.inj h]
    exact ⟨applyAggregate_uuid b _, applyAggregate_location b _⟩
  | removeProperties ks =>
    simp only [applyTableUpdate] at h
    rw [← Except.ok.inj h]
    exact ⟨applyAggregate_uuid b _, applyAggregate_location b _⟩

theorem applyTableUpdates_preserves (pu : Nat) (pl : String)
    (us : List TableUpdate) :
    ∀ b b', applyTableUpdates pu pl b us = .ok b' →
      b'.uuid = b.uuid ∧ b'.location = b.location := by
  induction us with
  | nil =>
    intro b b' h
    simp only [applyTableUpdates] at h
    rw [← Except.ok.inj h]
    exact ⟨rfl, rfl⟩
  | cons u rest ih =>
    intro b b' h
    simp only [applyTableUpdates] at h
    cases hstep : applyTableUpdate pu pl b u with
    | error e =>
      rw [hstep] at h
      simp only [except_error_bind] at h
      exact Except.noConfusion h
    | ok b1 =>
      rw [hstep] at h
      simp only [except_ok_bind] at h
      obtain ⟨h1, h2⟩ := ih b1 b' h
      obtain ⟨h3, h4⟩ := applyTableUpdate_preserves pu pl b b1 u hstep
      exact ⟨h1.trans h3, h2.trans h4⟩

theorem apply_commits_metadata_src (commits : List CommitContext) :
    ∀ (fresh : Nat) (resps : List CommitTableResponseExt),
      apply_commits fresh commits = .ok resps →
      ∀ resp ∈ resps, ∃ ctx ∈ commits,
        resp.metadata.uuid = ctx.metadata.uuid ∧
        resp.metadata.location = ctx.metadata.location := by
  induction commits with
  | nil =>
    intro fresh resps h resp hresp
    simp only [apply_commits] at h
    rw [← Except.ok.inj h] at hresp
    simp at hresp
  | cons c rest ih =>
    intro fresh resps h resp hresp
    simp only [apply_commits] at h
    cases hstep : applyTableUpdates c.metadata.uuid c.metadata.location
        c.metadata c.updates with
    | error e =>
      rw [hstep] at h
      simp only [except_error_bind] at h
      exact Except.noConfusion h
    | ok b' =>
      rw [hstep] at h
      simp only [except_ok_bind] at h
      cases hrest : apply_commits (fresh + 1) rest with
      | error e =>
        rw [hrest] at h
        simp only [except_error_bind] at h
        exact Except.noConfusion h
      | ok rresps =>
        rw [hrest] at h
        simp only [except_ok_bind] at h
        rw [← Except.ok.inj h] at hresp
        rcases List.mem_cons.mp hresp with heq | hmem
        · subst heq
          obtain ⟨h1, h2⟩ := applyTableUpdates_preserves _ _ _ _ _ hstep
          exact ⟨c, List.mem_cons_self _ _, h1, h2⟩
        · obtain ⟨ctx, hctx, h1, h2⟩ := ih (fresh + 1) rresps hrest resp hmem
          exact ⟨ctx, List.mem_cons_of_mem _ hctx, h1, h2⟩

theorem getCommitContextList_metadata_src (table_ids : List (TableIdent × Nat))
    (records : List CommitRecord) (changes : List CommitTableRequest) :
    ∀ contexts, getCommitContextList table_ids records changes = .ok contexts →
      ∀ ctx ∈ contexts, ∃ record ∈ records, ctx.metadata = record.metadata := by
  induction changes with
  | nil =>
    intro contexts h ctx hctx
    simp only [getCommitContextList] at h
    rw [← Except.ok.inj h] at hctx
    simp at hctx
  | cons ch rest ih =>
    intro contexts h ctx hctx
    simp only [getCommitContextList] at h
    split at h
    · exact Except.noConfusion h
    · split at h
      · exact Except.noConfusion h
      · split at h
        · exact Except.noConfusion h
        · rename_i ident hid table_id hlk record hrec
          cases hrest : getCommitContextList table_ids records rest with
          | error e =>
            rw [hrest] at h
            simp only [except_error_bind] at h
            exact Except.noConfusion h
          | ok ctxs =>
            rw [hrest] at h
            simp only [except_ok_bind] at h
            rw [← Except.ok.inj h] at hctx
            rcases List.mem_cons.mp hctx with heq | hmem
            · subst heq
              exact ⟨record, List.mem_of_find?_eq_some hrec, rfl⟩
            · exact ih ctxs hrest ctx hmem

theorem fetchCommitRecords_src (ids : List Nat) (st : CatalogState)
    (record : CommitRecord) (h : record ∈ fetchCommitRecords ids st) :
    ∃ t ∈ st.tables, record.metadata = t.metadata ∧
      record.table_id = t.table_id := by
  obtain ⟨t, ht, hmt⟩ := List.mem_filterMap.mp h
  by_cases hin : decide (t.table_id ∈ ids) = true
  case neg => rw [if_neg hin] at hmt; exact Option.noConfusion hmt
  rw [if_pos hin] at hmt
  cases hnw : activeWarehouseOf st t with
  | none =>
    rw [hnw] at hmt
    exact Option.noConfusion hmt
  | some nw =>
    obtain ⟨n, w⟩ := nw
    rw [hnw] at hmt
    have hmt' : some ({ table_id := t.table_id, metadata := t.metadata,
                        metadata_location := t.metadata_location,
                        storage_profile := w.storage_profile,
                        storage_secret_id := w.storage_secret_id,
                        namespace_id := n.namespace_id } : CommitRecord) =
        some record := hmt
    rw [← Option.some.inj hmt']
    exact ⟨t, ht, rfl, rfl⟩

/-- C4: the metadata-consistency invariant
`metadata.uuid = table_id ∧ metadata.location = table_location` holds for
every row after a successful `create_table` (which builds the metadata
from the new UUID and location) and after a successful
`commit_table_transaction` (whose bulk update keys rows by the new
metadata's uuid while the guards keep both fields in place). -/
theorem metadata_consistency_invariant
    (st : CatalogState)
    (hpk : ∀ t1 ∈ st.tables, ∀ t2 ∈ st.tables, t1.table_id = t2.table_id →
      t1 = t2)
    (hcons : ∀ t ∈ st.tables, rowConsistent t) :
    (∀ (namespace_id : Nat) (table : TableIdent) (table_id : Nat)
      (request : CreateTableRequest) (metadata_location : Option String)
      (st' : CatalogState) (meta : TableMetadata),
      create_table namespace_id table table_id request metadata_location st =
        .ok (st', meta) →
      ∀ t ∈ st'.tables, rowConsistent t) ∧
    (∀ (request : CommitTransactionRequest)
      (table_ids : List (TableIdent × Nat)) (fresh : Nat)
      (st' : CatalogState) (resps : List CommitTableResponseExt),
      commit_table_transaction request table_ids fresh st = .ok (st', resps) →
      ∀ t ∈ st'.tables, rowConsistent t) := by
  constructor
  · intro namespace_id table table_id request metadata_location st' meta hok
      t' ht'
    cases hloc : request.location with
    | none =>
      simp only [create_table, hloc] at hok
      exact Except.noConfusion hok
    | some location =>
      simp only [create_table, hloc] at hok
      by_cases hgate : namespaceActiveGate st namespace_id = true
      case neg =>
        rw [if_neg hgate] at hok
        exact Except.noConfusion hok
      rw [if_pos hgate] at hok
      split at hok
      · have hst' :
            ({ st with
               tables := st.tables ++
                 [createdRow namespace_id table.name table_id
                   (buildInitialMetadata location request table_id)
                   metadata_location location] } : CatalogState) = st' :=
          congrArg Prod.fst (Except.ok.inj hok)
        rw [← hst'] at ht'
        rcases List.mem_append.mp ht' with hold | hnewm
        · exact hcons t' hold
        · rw [List.mem_singleton.mp hnewm]
          exact ⟨rfl, rfl⟩
      · rename_i existing hfind
        split at hok
        · have hst' :
              ({ st with
                 tables := st.tables.map (fun t =>
                   if sameIdentPred namespace_id table.name t
                   then createdRow namespace_id table.name table_id
                     (buildInitialMetadata location request table_id)
                     metadata_location location else t) } : CatalogState) = st' :=
            congrArg Prod.fst (Except.ok.inj hok)
          rw [← hst'] at ht'
          obtain ⟨t0, ht0, hmap⟩ := List.mem_map.mp ht'
          by_cases hpred : sameIdentPred namespace_id table.name t0 = true
          · rw [if_pos hpred] at hmap
            rw [← hmap]
            exact ⟨rfl, rfl⟩
          · rw [if_neg hpred] at hmap
            rw [← hmap]
            exact hcons t0 ht0
        · exact Except.noConfusion hok
  · intro request table_ids fresh st' resps hok t' ht'
    simp only [commit_table_transaction] at hok
    cases hctx : get_commit_context request table_ids st with
    | error e =>
      rw [hctx] at hok
      simp only [except_error_bind] at hok
      exact Except.noConfusion hok
    | ok contexts =>
      rw [hctx] at hok
      simp only [except_ok_bind] at hok
      by_cases hlen : contexts.length > MAX_PARAMETERS / 4
      case pos =>
        rw [if_pos hlen] at hok
        exact Except.noConfusion hok
      rw [if_neg hlen] at hok
      cases hchk : checkRequirements contexts with
      | error e =>
        rw [hchk] at hok
        simp only [except_error_bind] at hok
        exact Except.noConfusion hok
      | ok u =>
        rw [hchk] at hok
        simp only [except_ok_bind] at hok
        cases happ : apply_commits fresh contexts with
        | error e =>
          rw [happ] at hok
          simp only [except_error_bind] at hok
          exact Except.noConfusion hok
        | ok resps0 =>
          rw [happ] at hok
          simp only [except_ok_bind] at hok
          by_cases hcount : countUpdatedTables st.tables
              (resps0.map (fun r => (r.metadata.uuid, r.metadata,
                r.metadata_location))) ≠ resps0.length
          case pos =>
            rw [if_pos hcount] at hok
            exact Except.noConfusion hok
          rw [if_neg hcount] at hok
          have hst' :
              ({ st with
                 tables := bulkUpdateTables st.tables
                   (resps0.map (fun r =>
                     (r.metadata.uuid, r.metadata, r.metadata_location))) } :
                CatalogState) = st' :=
            congrArg Prod.fst (Except.ok.inj hok)
          rw [← hst'] at ht'
          obtain ⟨r, hr, hmap⟩ := List.mem_map.mp ht'
          cases hfv : (resps0.map (fun r => (r.metadata.uuid, r.metadata,
              r.metadata_location))).find?
              (fun v => decide (v.1 = r.table_id)) with
          | none =>
            rw [hfv] at hmap
            rw [← hmap]
            exact hcons r hr
          | some v =>
            rw [hfv] at hmap
            have hvmem := List.mem_of_find?_eq_some hfv
            have hvid : v.1 = r.table_id := by
              have := List.find?_some hfv
              simpa using this
            obtain ⟨resp, hresp, hveq⟩ := List.mem_map.mp hvmem
            obtain ⟨ctx, hctx2, hu, hl⟩ :=
              apply_commits_metadata_src contexts fresh resps0 happ resp hresp
            have hctx' : getCommitContextList table_ids
                (fetchCommitRecords (table_ids.map (fun p => p.2)) st)
                request.table_changes = .ok contexts := hctx
            obtain ⟨record, hrec, hcm⟩ := getCommitContextList_metadata_src
              table_ids (fetchCommitRecords (table_ids.map (fun p => p.2)) st)
              request.table_changes contexts hctx' ctx hctx2
            obtain ⟨t0, ht0, hrm, hrid⟩ := fetchCommitRecords_src
              (table_ids.map (fun p => p.2)) st record hrec
            have ht0c := hcons t0 ht0
            have huuid0 : resp.metadata.uuid = t0.table_id := by
              rw [hu, hcm, hrm]
              exact ht0c.1
            have hloc0 : resp.metadata.location = t0.table_location := by
              rw [hl, hcm, hrm]
              exact ht0c.2
            have hrt0 : r = t0 := by
              apply hpk r hr t0 ht0
              rw [← hvid, ← hveq]
              exact huuid0
            rw [← hmap]
            constructor
            · show v.2.1.uuid = r.table_id
              rw [← hveq]
              show resp.metadata.uuid = r.table_id
              rw [huuid0, hrt0]
            · show v.2.1.location = r.table_location
              rw [← hveq]
              show resp.metadata.location = r.table_location
              rw [hloc0, hrt0]

/-- Witness for C4: the sample state satisfies the invariant, and it
still holds after creating table "u" and after the property-setting
commit on the committed sample table. -/
theorem metadata_consistency_invariant_witness :
    (∀ t1 ∈ sampleState.tables, ∀ t2 ∈ sampleState.tables,
      t1.table_id = t2.table_id → t1 = t2) ∧
    (∀ t ∈ sampleState.tables, rowConsistent t) ∧
    create_table 10 ⟨["ns"], "u"⟩ 101 sampleCreateRequestU (some "s3://b/u/m0")
      sampleState = .ok (sampleStateAfterCreate,
        buildInitialMetadata "s3://b/u" sampleCreateRequestU 101) ∧
    (∀ t ∈ sampleStateAfterCreate.tables, rowConsistent t) ∧
    commit_table_transaction sampleCommitRequestProps sampleTableIds 0
      sampleState = .ok (sampleStateAfterCommit, sampleCommitResponses) ∧
    (∀ t ∈ sampleStateAfterCommit.tables, rowConsistent t) := by
  have h := metadata_consistency_invariant sampleState (by decide) (by decide)
  refine ⟨by decide, by decide, rfl, ?_, rfl, ?_⟩
  · exact h.1 10 ⟨["ns"], "u"⟩ 101 sampleCreateRequestU (some "s3://b/u/m0")
      sampleStateAfterCreate
      (buildInitialMetadata "s3://b/u" sampleCreateRequestU 101) rfl
  · exact h.2 sampleCommitRequestProps sampleTableIds 0 sampleStateAfterCommit
      sampleCommitResponses rfl

/-- C9: request deserialization maps a missing page-token key to
`notSpecified`, an empty string to `empty`, and any other string `s` to
`present s`; response serialization maps `finished` to the literal string
"null", `notSupported` to an omitted field, and `nextToken s` to `s`. -/
theorem page_token_tri_state_encoding :
    PageToken.deserialize none = .notSpecified ∧
    PageToken.deserialize (some "") = .empty ∧
    (∀ s : String, s ≠ "" → PageToken.deserialize (some s) = .present s) ∧
    NextPageToken.serialize .finished = some "null" ∧
    NextPageToken.serialize .notSupported = none ∧
    (∀ s : String, NextPageToken.serialize (.nextToken s) = some s) := by
  refine ⟨rfl, rfl, ?_, rfl, rfl, fun s => rfl⟩
  intro s hs
  simp [PageToken.deserialize, hs]

/-- Witness for C9 at the concrete string "abc". -/
theorem page_token_tri_state_encoding_witness :
    ("abc" : String) ≠ "" ∧ PageToken.deserialize (some "abc") = .present "abc" := by
  refine ⟨by decide, ?_⟩
  exact page_token_tri_state_encoding.2.2.1 "abc" (by decide)

/-- C10: every present non-empty string, the literal "null" included,
deserializes to `nextToken`; the "null" arm is unreachable, so
serializing `finished` and deserializing the result yields
`nextToken "null"`, not `finished`: the codec does not round-trip. -/
theorem next_page_token_null_not_round_trip :
    (∀ s : String, s ≠ "" → NextPageToken.deserialize (some s) = .nextToken s) ∧
    NextPageToken.deserialize (some "null") = .nextToken "null" ∧
    NextPageToken.deserialize (NextPageToken.serialize .finished) = .nextToken "null" ∧
    NextPageToken.deserialize (NextPageToken.serialize .finished) ≠ .finished := by
  refine ⟨?_, by decide, by decide, by decide⟩
  intro s hs
  simp [NextPageToken.deserialize, hs]

/-- Witness for C10 at the concrete string "null". -/
theorem next_page_token_null_not_round_trip_witness :
    ("null" : String) ≠ "" ∧ NextPageToken.deserialize (some "null") = .nextToken "null" := by
  refine ⟨by decide, ?_⟩
  exact next_page_token_null_not_round_trip.1 "null" (by decide)

end IcebergCatalog
